import Mathlib

/-!
Verification of the cloudflare-session-operator against its specification.

The Go sources under `controllers/sessionbinding_controller.go`,
`pkg/cloudflare/client.go` and `api/v1alpha1/sessionbinding_types.go` are
shallowly embedded below.  The Kubernetes client, the Cloudflare client and
the clock are injected interfaces in the Go code; they are modelled as
records of functions (`KClient`, `CFClient`) plus a fixed `now : Nat`.
State mutation is made explicit by threading a state value `σ` through the
reconciler, and every externally observable action is recorded in an
`Effect` trace.  A concrete state-based client (`stateClient` over `World`)
instantiates `σ` with an explicit cluster state for whole-loop theorems.
-/

set_option maxHeartbeats 1000000

namespace SessionOperator

/-- Errors returned by the Kubernetes apiserver, as distinguished by the
controller: `apierrors.IsNotFound` versus anything else. -/
inductive ApiError where
  | notFound
  | transport (msg : String)
deriving DecidableEq, Repr

/-- Errors a reconcile invocation can return to the work queue: an apiserver
error or an error propagated from the Cloudflare client. -/
inductive RError where
  | api (e : ApiError)
  | cf (msg : String)
deriving DecidableEq, Repr

/-- Embedding of `ctrl.Result`: `Requeue` flag and `RequeueAfter` (seconds). -/
structure RResult where
  requeue : Bool := false
  requeueAfter : Nat := 0
deriving DecidableEq, Repr

/-- Embedding of `metav1.Condition` (the fields the controller reads/writes;
`observedGeneration` of a condition is always zero in this code and omitted). -/
@[ext] structure Condition where
  type : String
  status : String
  reason : String
  message : String
  lastTransitionTime : Nat
deriving DecidableEq, Repr

/-- Embedding of `v1alpha1.SessionBindingSpec`. -/
@[ext] structure SessionBindingSpec where
  sessionID : String
  userID : String := ""
  targetDeployment : String
  ttlSeconds : Option Int := none
deriving DecidableEq, Repr

/-- Embedding of `v1alpha1.SessionBindingStatus`.  The phase is kept as the
underlying string type (`""`, `"Pending"`, `"Bound"`, `"Expired"`, `"Error"`). -/
@[ext] structure SessionBindingStatus where
  phase : String := ""
  boundPod : String := ""
  routeEndpoint : String := ""
  observedGeneration : Int := 0
  conditions : List Condition := []
  lastReconcileTime : Option Nat := none
deriving DecidableEq, Repr

/-- Embedding of `v1alpha1.SessionBinding` with the object metadata the
controller consults: name, namespace, generation, deletion timestamp and
finalizer list. -/
@[ext] structure SessionBinding where
  name : String
  nspace : String
  generation : Int := 1
  deletionTimestamp : Option Nat := none
  finalizers : List String := []
  spec : SessionBindingSpec
  status : SessionBindingStatus := {}
deriving DecidableEq, Repr

/-- Embedding of `corev1.ContainerPort` (only `ContainerPort` is read). -/
structure ContainerPort where
  containerPort : Int
deriving DecidableEq, Repr

/-- Embedding of `corev1.Container` (only `Ports` is read). -/
structure Container where
  ports : List ContainerPort := []
deriving DecidableEq, Repr

/-- Embedding of `corev1.PodSpec` (only `Containers` is read). -/
structure PodSpec where
  containers : List Container := []
deriving DecidableEq, Repr

/-- Embedding of a pod status condition (type and status strings). -/
structure PodCondition where
  type : String
  status : String
deriving DecidableEq, Repr

/-- Embedding of `corev1.PodStatus` (phase, podIP, conditions). -/
structure PodStatus where
  phase : String := ""
  podIP : String := ""
  conditions : List PodCondition := []
deriving DecidableEq, Repr

/-- Embedding of `corev1.Pod` with the metadata the controller manipulates. -/
@[ext] structure Pod where
  name : String
  nspace : String
  labels : List (String × String) := []
  annots : List (String × String) := []
  ownerRef : Option String := none
  spec : PodSpec := {}
  status : PodStatus := {}
deriving DecidableEq, Repr

/-- Embedding of `appsv1.Deployment` (only the pod template is read). -/
structure PodTemplate where
  labels : List (String × String) := []
  annots : List (String × String) := []
  spec : PodSpec := {}
deriving DecidableEq, Repr

/-- Deployment object: name, namespace and pod template. -/
structure Deployment where
  name : String
  nspace : String
  template : PodTemplate := {}
deriving DecidableEq, Repr

/-- The finalizer constant from the controller. -/
def sessionBindingFinalizer : String := "sessionbinding.cloudflare.example.com/finalizer"

/-- The session label/annotation key constant from the controller. -/
def podSessionLabelKey : String := "cloudflare.example.com/session-id"

/-- Embedding of `controllerutil.ContainsFinalizer`. -/
def hasFin : List String → Bool
  | [] => false
  | f :: rest => if f = sessionBindingFinalizer then true else hasFin rest

/-- Embedding of `controllerutil.AddFinalizer`: append if absent. -/
def addFinalizer (b : SessionBinding) : SessionBinding :=
  if hasFin b.finalizers then b
  else { b with finalizers := b.finalizers ++ [sessionBindingFinalizer] }

/-- Embedding of `controllerutil.RemoveFinalizer`: drop every occurrence. -/
def removeFin : List String → List String
  | [] => []
  | f :: rest => if f = sessionBindingFinalizer then removeFin rest else f :: removeFin rest

/-- RemoveFinalizer applied to a binding. -/
def removeFinalizer (b : SessionBinding) : SessionBinding :=
  { b with finalizers := removeFin b.finalizers }

/-- Map assignment on a label/annotation set, as Go `m[k] = v`. -/
def setKV : List (String × String) → String → String → List (String × String)
  | [], k, v => [(k, v)]
  | (k0, v0) :: rest, k, v =>
    if k0 = k then (k, v) :: rest else (k0, v0) :: setKV rest k v

/-- Lookup of the first condition of a given type, as
`meta.FindStatusCondition`. -/
def findCond : List Condition → String → Option Condition
  | [], _ => none
  | c :: rest, t => if c.type = t then some c else findCond rest t

/-- Embedding of `meta.SetStatusCondition` as invoked by the controller's
`setCondition` helper (the new condition carries a zero transition time, so a
status flip stamps the current time `now`). -/
def setCondList (now : Nat) (t st r m : String) : List Condition → List Condition
  | [] => [⟨t, st, r, m, now⟩]
  | c :: rest =>
    if c.type = t then
      (if c.status = st then { c with reason := r, message := m }
       else ⟨t, st, r, m, now⟩) :: rest
    else c :: setCondList now t st r m rest

/-- The controller's `setCondition` applied to a binding's status. -/
def setCond (now : Nat) (b : SessionBinding) (t st r m : String) : SessionBinding :=
  { b with status := { b.status with conditions := setCondList now t st r m b.status.conditions } }

/-- Condition type constants from `sessionbinding_types.go`. -/
def condSessionDiscovered : String := "SessionDiscovered"

/-- Condition type constant `ConditionPodReady`. -/
def condPodReady : String := "PodReady"

/-- Condition type constant `ConditionRouteConfigured`. -/
def condRouteConfigured : String := "RouteConfigured"

/-- Embedding of `pkg/cloudflare.APIClient`: the concrete Cloudflare client
configured from `CLOUDFLARE_ACCOUNT_ID` / `CLOUDFLARE_API_TOKEN`. -/
structure APIClient where
  accountID : String
  apiToken : String
deriving DecidableEq, Repr

/-- Embedding of `APIClient.EnsureSession`; the Go pair `(bool, error)` is the
pair `(Bool, Option String)`. -/
def APIClient.EnsureSession (c : APIClient) (sessionID : String) : Bool × Option String :=
  if sessionID = "" then (false, some "sessionID is empty")
  else if c.apiToken = "" ∨ c.accountID = "" then (true, none)
  else (true, none)

/-- Embedding of `APIClient.EnsureRoute`. -/
def APIClient.EnsureRoute (c : APIClient) (sessionID endpoint : String) : Option String :=
  if sessionID = "" then some "sessionID is empty"
  else if endpoint = "" then some "endpoint is empty"
  else if c.apiToken = "" ∨ c.accountID = "" then none
  else none

/-- Embedding of `APIClient.DeleteRoute`. -/
def APIClient.DeleteRoute (c : APIClient) (sessionID : String) : Option String :=
  if sessionID = "" then none
  else if c.apiToken = "" ∨ c.accountID = "" then none
  else none

/-- The abstract Cloudflare client interface the reconciler is written
against (`cloudflare.Client`). -/
structure CFClient where
  ensureSession : String → Bool × Option String
  ensureRoute : String → String → Option String
  deleteRoute : String → Option String

/-- Embedding of the controller's helper `isPodReady`. -/
def isPodReady (pod : Pod) : Bool :=
  if pod.status.phase = "Running" then
    pod.status.conditions.any (fun c => c.type == "Ready" && c.status == "True")
  else false

/-- The loop body of `podEndpoint`: `port := 80`, scan the containers and take
the first declared port, breaking out of the loop. -/
def podEndpointLoop (port : Int) : List Container → Int
  | [] => port
  | c :: rest =>
    match c.ports with
    | [] => podEndpointLoop port rest
    | p :: _ => p.containerPort

/-- Embedding of the controller's `podEndpoint`. -/
def podEndpoint (pod : Pod) : String :=
  if pod.status.podIP = "" then ""
  else pod.status.podIP ++ ":" ++ toString (podEndpointLoop 80 pod.spec.containers)

/-- Observable actions of one reconcile invocation: apiserver calls,
Cloudflare calls and emitted events, in order. -/
inductive Effect where
  | getBinding (ns n : String)
  | updateBinding (b : SessionBinding)
  | statusUpdate (b : SessionBinding)
  | getPod (ns n : String)
  | createPod (n : String)
  | deletePod (ns n : String)
  | getDeployment (ns n : String)
  | ensureSessionCall (sessionID : String)
  | ensureRouteCall (sessionID endpoint : String)
  | deleteRouteCall (sessionID : String)
  | event (reason : String)
deriving DecidableEq, Repr

/-- The Kubernetes client interface the reconciler is written against
(`client.Client`), generic in a cluster-state type `σ`.  Read operations
inspect the state; write operations return the new state or an error. -/
structure KClient (σ : Type) where
  getBinding : σ → String → String → Except ApiError SessionBinding
  updateBinding : σ → SessionBinding → Except ApiError σ
  statusUpdate : σ → SessionBinding → Except ApiError σ
  getPod : σ → String → String → Except ApiError Pod
  createPod : σ → Pod → Except ApiError σ
  deletePod : σ → String → String → Except ApiError σ
  getDeployment : σ → String → String → Except ApiError Deployment

/-- Outcome of `reconcileActive`: the mutated binding (status updates happen
in place in Go), the result/error pair, the cluster state and the effects. -/
structure ActiveOut (σ : Type) where
  binding : SessionBinding
  result : RResult
  err : Option RError
  state : σ
  effects : List Effect

/-- Outcome of a whole reconcile invocation. -/
structure RecOut (σ : Type) where
  result : RResult
  err : Option RError
  state : σ
  effects : List Effect

/-- Embedding of the controller's `ensureSessionPod`: lookup by deterministic
name, else materialise a pod from the target deployment's template and create
it, emitting a `PodCreated` event. -/
def ensureSessionPod {σ : Type} (k : KClient σ) (s : σ) (b : SessionBinding) :
    Except ApiError (Pod × σ) × List Effect :=
  let podName := "session-" ++ b.spec.sessionID
  match k.getPod s b.nspace podName with
  | .ok pod => (.ok (pod, s), [.getPod b.nspace podName])
  | .error ApiError.notFound =>
    match k.getDeployment s b.nspace b.spec.targetDeployment with
    | .error e2 => (.error e2, [.getPod b.nspace podName, .getDeployment b.nspace b.spec.targetDeployment])
    | .ok dep =>
      let labels := setKV (setKV dep.template.labels podSessionLabelKey b.spec.sessionID)
        "app.kubernetes.io/managed-by" "cloudflare-session-operator"
      let pod : Pod :=
        { name := podName, nspace := b.nspace, labels := labels
          annots := setKV dep.template.annots podSessionLabelKey b.spec.sessionID
          ownerRef := some b.name, spec := dep.template.spec, status := {} }
      match k.createPod s pod with
      | .error e3 => (.error e3,
          [.getPod b.nspace podName, .getDeployment b.nspace b.spec.targetDeployment])
      | .ok s2 => (.ok (pod, s2),
          [.getPod b.nspace podName, .getDeployment b.nspace b.spec.targetDeployment,
           .createPod podName, .event "PodCreated"])
  | .error e => (.error e, [.getPod b.nspace podName])

/-- The tail of `reconcileActive` after a pod has been obtained: readiness
check, endpoint derivation and route programming.  This stage performs no
further Kubernetes calls. -/
def activeAfterPod (cf : CFClient) (now : Nat) (b : SessionBinding) (pod : Pod) :
    SessionBinding × RResult × List Effect :=
  if isPodReady pod then
    let b2 := setCond now b condPodReady "True" "PodReady" "Session pod ready"
    let ep := podEndpoint pod
    if ep = "" then
      let b3 := setCond now b2 condRouteConfigured "False" "PodEndpointMissing" "Pod ready but lacks PodIP/port"
      ({ b3 with status := { b3.status with phase := "Error" } }, ⟨false, 5⟩, [])
    else
      match cf.ensureRoute b.spec.sessionID ep with
      | some msg =>
        let b3 := setCond now b2 condRouteConfigured "False" "CloudflareError" msg
        ({ b3 with status := { b3.status with phase := "Error" } }, ⟨false, 60⟩,
         [.ensureRouteCall b.spec.sessionID ep])
      | none =>
        let b3 := { b2 with status := { b2.status with phase := "Bound", boundPod := pod.name, routeEndpoint := ep } }
        (setCond now b3 condRouteConfigured "True" "RouteConfigured" "Cloudflare route configured",
         ⟨false, 0⟩, [.ensureRouteCall b.spec.sessionID ep])
  else
    let b2 := setCond now b condPodReady "False" "WaitingForReadiness" "Session pod not ready yet"
    ({ b2 with status := { b2.status with phase := "Pending", boundPod := pod.name, routeEndpoint := "" } },
     ⟨false, 10⟩, [])

/-- Embedding of the controller's `reconcileActive`. -/
def reconcileActive {σ : Type} (k : KClient σ) (cf : CFClient) (now : Nat) (s : σ)
    (b : SessionBinding) : ActiveOut σ :=
  if b.spec.sessionID = "" then
    let b1 := setCond now b condSessionDiscovered "False" "InvalidSpec" "spec.sessionID must be provided"
    ⟨{ b1 with status := { b1.status with phase := "Error" } }, ⟨false, 0⟩, none, s, []⟩
  else
    match cf.ensureSession b.spec.sessionID with
    | (_, some msg) =>
      let b1 := setCond now b condSessionDiscovered "Unknown" "CloudflareError" msg
      ⟨{ b1 with status := { b1.status with phase := "Error" } }, ⟨false, 60⟩, none, s,
       [.ensureSessionCall b.spec.sessionID]⟩
    | (false, none) =>
      let b1 := setCond now b condSessionDiscovered "False" "NotFound" "Cloudflare session not found"
      ⟨{ b1 with status := { b1.status with phase := "Expired" } }, ⟨false, 0⟩, none, s,
       [.ensureSessionCall b.spec.sessionID]⟩
    | (true, none) =>
      let b1 := setCond now b condSessionDiscovered "True" "SessionActive" "Cloudflare session is active"
      match ensureSessionPod k s b1 with
      | (.error e, tr) =>
        ⟨{ b1 with status := { b1.status with phase := "Error" } }, ⟨false, 0⟩, some (.api e), s,
         .ensureSessionCall b.spec.sessionID :: tr⟩
      | (.ok (pod, s2), tr) =>
        let out := activeAfterPod cf now b1 pod
        ⟨out.1, out.2.1, none, s2, .ensureSessionCall b.spec.sessionID :: tr ++ out.2.2⟩

/-- The pod-deletion step of `cleanupResources`: look up `status.boundPod`
and, when the lookup succeeds, delete the pod, tolerating `NotFound`.  Any
lookup error is skipped over (`if err == nil` in the Go source). -/
def podCleanup {σ : Type} (k : KClient σ) (s : σ) (b : SessionBinding) :
    Except ApiError σ × List Effect :=
  if b.status.boundPod = "" then (.ok s, [])
  else
    match k.getPod s b.nspace b.status.boundPod with
    | .ok pod =>
      match k.deletePod s pod.nspace pod.name with
      | .ok s2 => (.ok s2, [.getPod b.nspace b.status.boundPod, .deletePod pod.nspace pod.name])
      | .error ApiError.notFound =>
        (.ok s, [.getPod b.nspace b.status.boundPod, .deletePod pod.nspace pod.name])
      | .error e => (.error e, [.getPod b.nspace b.status.boundPod, .deletePod pod.nspace pod.name])
    | .error _ => (.ok s, [.getPod b.nspace b.status.boundPod])

/-- Embedding of the controller's `cleanupResources`. -/
def cleanupResources {σ : Type} (k : KClient σ) (cf : CFClient) (s : σ) (b : SessionBinding) :
    Option RError × σ × List Effect :=
  match podCleanup k s b with
  | (.error e, tr) => (some (.api e), s, tr)
  | (.ok s1, tr) =>
    if b.spec.sessionID = "" then (none, s1, tr ++ [.event "CleanedUp"])
    else
      match cf.deleteRoute b.spec.sessionID with
      | some msg => (some (.cf msg), s1, tr ++ [.deleteRouteCall b.spec.sessionID])
      | none => (none, s1, tr ++ [.deleteRouteCall b.spec.sessionID, .event "CleanedUp"])

/-- Embedding of the controller's `handleDeletion`. -/
def handleDeletion {σ : Type} (k : KClient σ) (cf : CFClient) (s : σ) (b : SessionBinding) :
    RecOut σ :=
  if hasFin b.finalizers then
    match cleanupResources k cf s b with
    | (some e, s1, tr) => ⟨⟨false, 0⟩, some e, s1, tr⟩
    | (none, s1, tr) =>
      let b2 := removeFinalizer b
      match k.updateBinding s1 b2 with
      | .error e => ⟨⟨false, 0⟩, some (.api e), s1, tr ++ [.updateBinding b2]⟩
      | .ok s2 => ⟨⟨false, 0⟩, none, s2, tr ++ [.updateBinding b2]⟩
  else ⟨⟨false, 0⟩, none, s, []⟩

/-- Embedding of the controller's `patchStatus`: re-read, compare
semantically, write only on difference. -/
def patchStatus {σ : Type} (k : KClient σ) (s : σ) (b : SessionBinding) :
    Option RError × σ × List Effect :=
  match k.getBinding s b.nspace b.name with
  | .error e => (some (.api e), s, [.getBinding b.nspace b.name])
  | .ok current =>
    if current.status = b.status then (none, s, [.getBinding b.nspace b.name])
    else
      let b2 := { current with status := b.status }
      match k.statusUpdate s b2 with
      | .error e => (some (.api e), s, [.getBinding b.nspace b.name, .statusUpdate b2])
      | .ok s2 => (none, s2, [.getBinding b.nspace b.name, .statusUpdate b2])

/-- The status stamp of `Reconcile`: `observedGeneration := generation`,
`lastReconcileTime := clock.Now()`. -/
def stampedBinding (now : Nat) (b : SessionBinding) : SessionBinding :=
  { b with status := { b.status with observedGeneration := b.generation, lastReconcileTime := some now } }

/-- The tail of `Reconcile` once a live, finalized binding is in hand: stamp,
active reconcile, status write-back, error selection. -/
def reconcileMain {σ : Type} (k : KClient σ) (cf : CFClient) (now : Nat) (s : σ)
    (b : SessionBinding) : RecOut σ :=
  let b1 := stampedBinding now b
  let a := reconcileActive k cf now s b1
  let p := patchStatus k a.state a.binding
  match a.err with
  | some e => ⟨a.result, some e, p.2.1, a.effects ++ p.2.2⟩
  | none => ⟨a.result, p.1, p.2.1, a.effects ++ p.2.2⟩

/-- Prefix an effect list onto a reconcile outcome. -/
def withEff {σ : Type} (es : List Effect) (o : RecOut σ) : RecOut σ :=
  { o with effects := es ++ o.effects }

/-- Embedding of `SessionBindingReconciler.Reconcile`. -/
def Reconcile {σ : Type} (k : KClient σ) (cf : CFClient) (now : Nat) (s : σ)
    (ns n : String) : RecOut σ :=
  match k.getBinding s ns n with
  | .error ApiError.notFound => ⟨⟨false, 0⟩, none, s, [.getBinding ns n]⟩
  | .error e => ⟨⟨false, 0⟩, some (.api e), s, [.getBinding ns n]⟩
  | .ok b =>
    if b.deletionTimestamp ≠ none then
      withEff [.getBinding ns n] (handleDeletion k cf s b)
    else if hasFin b.finalizers then
      withEff [.getBinding ns n] (reconcileMain k cf now s b)
    else
      let b1 := addFinalizer b
      match k.updateBinding s b1 with
      | .error e => ⟨⟨false, 0⟩, some (.api e), s, [.getBinding ns n, .updateBinding b1]⟩
      | .ok s1 =>
        withEff [.getBinding ns n, .updateBinding b1] (reconcileMain k cf now s1 b1)

/-- An explicit cluster state: the binding under reconcile, the pods and the
deployments of the cluster. -/
@[ext] structure World where
  binding : Option SessionBinding := none
  pods : List Pod := []
  deployments : List Deployment := []
deriving DecidableEq, Repr

/-- Pod lookup by namespace and name. -/
def findPodIn : List Pod → String → String → Option Pod
  | [], _, _ => none
  | p :: rest, ns, n =>
    if p.nspace = ns ∧ p.name = n then some p else findPodIn rest ns n

/-- Pod removal by namespace and name. -/
def removePodIn : List Pod → String → String → List Pod
  | [], _, _ => []
  | p :: rest, ns, n =>
    if p.nspace = ns ∧ p.name = n then removePodIn rest ns n
    else p :: removePodIn rest ns n

/-- Deployment lookup by namespace and name. -/
def findDepIn : List Deployment → String → String → Option Deployment
  | [], _, _ => none
  | d :: rest, ns, n =>
    if d.nspace = ns ∧ d.name = n then some d else findDepIn rest ns n

/-- The state-based Kubernetes client over `World`: a fault-free apiserver
whose answers are determined by the stored objects. -/
def stateClient : KClient World where
  getBinding := fun w ns n =>
    match w.binding with
    | some b => if b.nspace = ns ∧ b.name = n then .ok b else .error .notFound
    | none => .error .notFound
  updateBinding := fun w b => .ok { w with binding := some b }
  statusUpdate := fun w b => .ok { w with binding := some b }
  getPod := fun w ns n =>
    match findPodIn w.pods ns n with
    | some p => .ok p
    | none => .error .notFound
  createPod := fun w p =>
    match findPodIn w.pods p.nspace p.name with
    | some _ => .error (.transport "AlreadyExists")
    | none => .ok { w with pods := w.pods ++ [p] }
  deletePod := fun w ns n =>
    match findPodIn w.pods ns n with
    | some _ => .ok { w with pods := removePodIn w.pods ns n }
    | none => .error .notFound
  getDeployment := fun w ns n =>
    match findDepIn w.deployments ns n with
    | some d => .ok d
    | none => .error .notFound

/-- One reconcile step on the cluster state. -/
def recStep (cf : CFClient) (now : Nat) (ns n : String) (w : World) : World :=
  (Reconcile stateClient cf now w ns n).state

/-- Iterated reconcile steps. -/
def recIter (cf : CFClient) (now : Nat) (ns n : String) : Nat → World → World
  | 0, w => w
  | kk + 1, w => recIter cf now ns n kk (recStep cf now ns n w)

/-- The status stored for the binding, if a binding is stored. -/
def worldStatus (w : World) : Option SessionBindingStatus :=
  w.binding.map (fun b => b.status)

/-- Port selection as the specification words it after amendment: the first
declared port of the first container that declares at least one port, else 80. -/
def firstDeclaredPort : List Container → Int
  | [] => 80
  | c :: rest =>
    match c.ports with
    | [] => firstDeclaredPort rest
    | p :: _ => p.containerPort

/-- Condition list contains, as its first condition of type `t`, an entry
with the given status, reason and message. -/
def condMatch (cs : List Condition) (t st r m : String) : Prop :=
  ∃ c, findCond cs t = some c ∧ c.status = st ∧ c.reason = r ∧ c.message = m

/-- A Kubernetes client over a unit state whose answers are fixed, used to
exercise the reconciler at chosen apiserver outcomes. -/
def unitClient (gb : Except ApiError SessionBinding) (gp : Except ApiError Pod)
    (gd : Except ApiError Deployment) (ub su cp dp : Except ApiError Unit) :
    KClient Unit where
  getBinding := fun _ _ _ => gb
  updateBinding := fun _ _ => ub
  statusUpdate := fun _ _ => su
  getPod := fun _ _ _ => gp
  createPod := fun _ _ => cp
  deletePod := fun _ _ _ => dp
  getDeployment := fun _ _ _ => gd

/-- A Cloudflare client whose calls all succeed (session exists). -/
def cfOk : CFClient where
  ensureSession := fun _ => (true, none)
  ensureRoute := fun _ _ => none
  deleteRoute := fun _ => none

/-- A Cloudflare client that reports every session as missing. -/
def cfExpired : CFClient where
  ensureSession := fun _ => (false, none)
  ensureRoute := fun _ _ => none
  deleteRoute := fun _ => none

/-- A Cloudflare client whose route retraction fails. -/
def cfRouteErr : CFClient where
  ensureSession := fun _ => (true, none)
  ensureRoute := fun _ _ => none
  deleteRoute := fun _ => some "edge down"

/-- A bare pod named `p1` in namespace `ns`. -/
def pod1 : Pod := { name := "p1", nspace := "ns" }

/-- A pod used in counterexamples: the first container declares no port, the
second declares 9090. -/
def c2pod : Pod :=
  { name := "p", nspace := "ns"
    spec := { containers := [{ ports := [] }, { ports := [⟨9090⟩] }] }
    status := { phase := "Running", podIP := "10.0.0.1" } }

/-- A ready session pod for session `s1` with podIP `10.0.0.7` and port 8080. -/
def readyPod : Pod :=
  { name := "session-s1", nspace := "ns"
    spec := { containers := [{ ports := [⟨8080⟩] }] }
    status := { phase := "Running", podIP := "10.0.0.7", conditions := [⟨"Ready", "True"⟩] } }

/-- A binding with an empty sessionID and the finalizer in place. -/
def bInv : SessionBinding :=
  { name := "b", nspace := "ns", generation := 1
    finalizers := [sessionBindingFinalizer]
    spec := { sessionID := "", targetDeployment := "web" } }

/-- A binding with valid spec and the finalizer in place. -/
def bFin : SessionBinding :=
  { name := "b", nspace := "ns", generation := 1
    finalizers := [sessionBindingFinalizer]
    spec := { sessionID := "s1", targetDeployment := "web" } }

/-- A binding with valid spec that lacks the finalizer. -/
def bNoFin : SessionBinding :=
  { name := "b", nspace := "ns", generation := 1
    spec := { sessionID := "s1", targetDeployment := "web" } }

/-- A binding under deletion that carries the finalizer and records a bound pod. -/
def bDel : SessionBinding :=
  { name := "b", nspace := "ns", generation := 1
    deletionTimestamp := some 1
    finalizers := [sessionBindingFinalizer]
    spec := { sessionID := "s1", targetDeployment := "web" }
    status := { boundPod := "p1" } }

/-- A binding under deletion that does not carry the finalizer. -/
def bDelNoFin : SessionBinding :=
  { name := "b", nspace := "ns", generation := 1
    deletionTimestamp := some 1
    spec := { sessionID := "s1", targetDeployment := "web" }
    status := { boundPod := "p1" } }

/-- World holding the invalid-spec binding. -/
def wInv : World := { binding := some bInv }

/-- World holding the finalizer-less binding. -/
def wNoFin : World := { binding := some bNoFin }

/-- Unit-state client that finds the ready session pod. -/
def kReady : KClient Unit :=
  unitClient (.ok bFin) (.ok readyPod) (.error .notFound) (.ok ()) (.ok ()) (.ok ()) (.ok ())

/-- Setting a condition makes its entry the first match for its type. -/
theorem condMatch_set (now : Nat) (t st r m : String) (cs : List Condition) :
    condMatch (setCondList now t st r m cs) t st r m := by
  induction cs with
  | nil => exact ⟨⟨t, st, r, m, now⟩, by simp [setCondList, findCond], rfl, rfl, rfl⟩
  | cons c rest ih =>
    by_cases h : c.type = t
    · by_cases h2 : c.status = st
      · exact ⟨{ c with reason := r, message := m }, by simp [setCondList, findCond, h, h2], h2, rfl, rfl⟩
      · exact ⟨⟨t, st, r, m, now⟩, by simp [setCondList, findCond, h, h2], rfl, rfl, rfl⟩
    · obtain ⟨c0, hf, hst, hr, hm⟩ := ih
      exact ⟨c0, by simpa [setCondList, findCond, h] using hf, hst, hr, hm⟩

/-- Setting a condition that already holds with the same status, reason and
message leaves the list unchanged. -/
theorem setCondList_stable {cs : List Condition} {t st r m : String} (now : Nat)
    (h : condMatch cs t st r m) : setCondList now t st r m cs = cs := by
  induction cs with
  | nil => obtain ⟨c0, hf, _⟩ := h; simp [findCond] at hf
  | cons c rest ih =>
    obtain ⟨c0, hf, hst, hr, hm⟩ := h
    by_cases hty : c.type = t
    · simp only [findCond, if_pos hty] at hf
      obtain rfl : c = c0 := by injection hf
      have hc : ({ c with reason := r, message := m } : Condition) = c := by
        ext <;> simp [hr, hm]
      simp only [setCondList, if_pos hty, if_pos hst, hc]
    · simp only [findCond, if_neg hty] at hf
      simp [setCondList, hty, ih ⟨c0, hf, hst, hr, hm⟩]

/-- Setting a condition of another type does not change the first match for
a type. -/
theorem findCond_set_ne (now : Nat) (t2 st2 r2 m2 t : String) (cs : List Condition)
    (hne : t2 ≠ t) : findCond (setCondList now t2 st2 r2 m2 cs) t = findCond cs t := by
  induction cs with
  | nil => simp [setCondList, findCond, hne]
  | cons c rest ih =>
    by_cases h : c.type = t2
    · have hct : ¬c.type = t := by rw [h]; exact hne
      by_cases h2 : c.status = st2 <;>
        simp [setCondList, findCond, h, h2, hct, hne]
    · by_cases h3 : c.type = t
      · have ht2 : ¬t = t2 := fun hh => hne hh.symm
        simp [setCondList, findCond, h, h3, ht2]
      · simp [setCondList, findCond, h, h3, ih]

/-- Setting a condition of another type preserves `condMatch`. -/
theorem condMatch_set_ne (now : Nat) (t2 st2 r2 m2 : String) {cs : List Condition}
    {t st r m : String} (hne : t2 ≠ t) (h : condMatch cs t st r m) :
    condMatch (setCondList now t2 st2 r2 m2 cs) t st r m := by
  obtain ⟨c0, hf, hst, hr, hm⟩ := h
  exact ⟨c0, (findCond_set_ne now t2 st2 r2 m2 t cs hne).symm ▸ hf, hst, hr, hm⟩

/-- The accumulator form of the `podEndpoint` port loop agrees with the
direct first-declared-port recursion. -/
theorem podEndpointLoop_eq (cs : List Container) :
    podEndpointLoop 80 cs = firstDeclaredPort cs := by
  induction cs with
  | nil => rfl
  | cons c rest ih =>
    cases h : c.ports with
    | nil => simpa [podEndpointLoop, firstDeclaredPort, h] using ih
    | cons p ps => simp [podEndpointLoop, firstDeclaredPort, h]

/-- C2 counterexample: on a pod whose first container declares no port while
a later container declares 9090, `podEndpoint` returns `10.0.0.1:9090`,
not the `10.0.0.1:80` the claim requires. -/
theorem C2_counterexample :
    podEndpoint c2pod = "10.0.0.1:9090" ∧ podEndpoint c2pod ≠ "10.0.0.1:80" := by
  refine ⟨rfl, ?_⟩
  decide

/-- C2 (amended): `podEndpoint` returns the empty string when the pod has no
podIP, and otherwise the literal `podIP ++ ":" ++ port` where the port is
the first declared port of the first container that declares at least one
port, scanning containers in order, with default 80 when no container
declares a port. -/
theorem C2_amended_endpoint (pod : Pod) :
    podEndpoint pod =
      if pod.status.podIP = "" then ""
      else pod.status.podIP ++ ":" ++ toString (firstDeclaredPort pod.spec.containers) := by
  unfold podEndpoint
  rw [podEndpointLoop_eq]

/-- C10: the real edge client's `EnsureSession` returns `(false, error)` on
the empty session id for every credential configuration: the empty-argument
check precedes the disabled-integration check. -/
theorem C10_empty_session_rejected (c : APIClient) :
    c.EnsureSession "" = (false, some "sessionID is empty") := by
  simp [APIClient.EnsureSession]

/-- C7: whenever at least one of the account id and API token is empty, the
real edge client is disabled: `EnsureSession` returns `(true, none)` on every
non-empty session id, `EnsureRoute` succeeds on non-empty arguments,
`DeleteRoute` always succeeds, and all three operations coincide with those
of the client whose credentials are both empty. -/
theorem C7_disabled_credentials (acc tok : String) (hcred : tok = "" ∨ acc = "") :
    (∀ sid, sid ≠ "" → APIClient.EnsureSession ⟨acc, tok⟩ sid = (true, none))
    ∧ (∀ sid ep, sid ≠ "" → ep ≠ "" → APIClient.EnsureRoute ⟨acc, tok⟩ sid ep = none)
    ∧ (∀ sid, APIClient.DeleteRoute ⟨acc, tok⟩ sid = none)
    ∧ (∀ sid, APIClient.EnsureSession ⟨acc, tok⟩ sid = APIClient.EnsureSession ⟨"", ""⟩ sid)
    ∧ (∀ sid ep, APIClient.EnsureRoute ⟨acc, tok⟩ sid ep = APIClient.EnsureRoute ⟨"", ""⟩ sid ep)
    ∧ (∀ sid, APIClient.DeleteRoute ⟨acc, tok⟩ sid = APIClient.DeleteRoute ⟨"", ""⟩ sid) := by
  refine ⟨?_, ?_, ?_, ?_, ?_, ?_⟩
  · intro sid hsid
    simp [APIClient.EnsureSession, hsid, hcred]
  · intro sid ep hsid hep
    simp [APIClient.EnsureRoute, hsid, hep, hcred]
  · intro sid
    by_cases hsid : sid = "" <;> simp [APIClient.DeleteRoute, hsid, hcred]
  · intro sid
    by_cases hsid : sid = "" <;> simp [APIClient.EnsureSession, hsid, hcred]
  · intro sid ep
    by_cases hsid : sid = "" <;> by_cases hep : ep = "" <;>
      simp [APIClient.EnsureRoute, hsid, hep, hcred]
  · intro sid
    by_cases hsid : sid = "" <;> simp [APIClient.DeleteRoute, hsid, hcred]

/-- Witness for C7 at the account-id-only configuration. -/
theorem C7_disabled_credentials_witness :
    APIClient.EnsureSession ⟨"acct", ""⟩ "s1" = (true, none)
    ∧ APIClient.EnsureRoute ⟨"acct", ""⟩ "s1" "10.0.0.7:8080" = none := by
  have h := C7_disabled_credentials "acct" "" (Or.inl rfl)
  exact ⟨h.1 "s1" (by decide), h.2.1 "s1" "10.0.0.7:8080" (by decide) (by decide)⟩

/-- Teardown surfaces a cleanup error without touching the finalizer. -/
theorem handleDeletion_some {σ : Type} (k : KClient σ) (cf : CFClient) (s : σ)
    (b : SessionBinding) {e : RError} {s1 : σ} {tr : List Effect}
    (hfin : hasFin b.finalizers = true)
    (hcl : cleanupResources k cf s b = (some e, s1, tr)) :
    handleDeletion k cf s b = ⟨⟨false, 0⟩, some e, s1, tr⟩ := by
  unfold handleDeletion
  rw [if_pos hfin, hcl]

/-- Teardown after successful cleanup removes the finalizer and writes the
binding back. -/
theorem handleDeletion_none {σ : Type} (k : KClient σ) (cf : CFClient) (s : σ)
    (b : SessionBinding) {s1 : σ} {tr : List Effect} {s2 : σ}
    (hfin : hasFin b.finalizers = true)
    (hcl : cleanupResources k cf s b = (none, s1, tr))
    (hupd : k.updateBinding s1 (removeFinalizer b) = .ok s2) :
    handleDeletion k cf s b
      = ⟨⟨false, 0⟩, none, s2, tr ++ [.updateBinding (removeFinalizer b)]⟩ := by
  unfold handleDeletion
  rw [if_pos hfin, hcl]
  dsimp only
  rw [hupd]

/-- Teardown without the finalizer is a no-op. -/
theorem handleDeletion_nofin {σ : Type} (k : KClient σ) (cf : CFClient) (s : σ)
    (b : SessionBinding) (hfin : hasFin b.finalizers = false) :
    handleDeletion k cf s b = ⟨⟨false, 0⟩, none, s, []⟩ := by
  unfold handleDeletion
  rw [if_neg (by simp [hfin])]

/-- AddFinalizer only touches the finalizer list. -/
theorem addFinalizer_meta (b : SessionBinding) :
    (addFinalizer b).nspace = b.nspace ∧ (addFinalizer b).name = b.name
    ∧ (addFinalizer b).deletionTimestamp = b.deletionTimestamp := by
  unfold addFinalizer
  split <;> exact ⟨rfl, rfl, rfl⟩

/-- Every effect of the pod-cleanup step is a pod lookup or a pod delete. -/
theorem podCleanup_effects {σ : Type} (k : KClient σ) (s : σ) (b : SessionBinding) :
    ∀ e ∈ (podCleanup k s b).2,
      (∃ ns n, e = Effect.getPod ns n) ∨ ∃ ns n, e = Effect.deletePod ns n := by
  unfold podCleanup
  by_cases hbp : b.status.boundPod = ""
  · simp [hbp]
  · simp only [if_neg hbp]
    rcases hg : k.getPod s b.nspace b.status.boundPod with e0 | pod
    · simp only [hg]
      intro e he
      simp at he
      exact Or.inl ⟨_, _, he⟩
    · rcases hd : k.deletePod s pod.nspace pod.name with e1 | s2
      · cases e1 with
        | notFound =>
          simp only [hg, hd]
          intro e he
          simp at he
          rcases he with h | h
          · exact Or.inl ⟨_, _, h⟩
          · exact Or.inr ⟨_, _, h⟩
        | transport msg =>
          simp only [hg, hd]
          intro e he
          simp at he
          rcases he with h | h
          · exact Or.inl ⟨_, _, h⟩
          · exact Or.inr ⟨_, _, h⟩
      · simp only [hg, hd]
        intro e he
        simp at he
        rcases he with h | h
        · exact Or.inl ⟨_, _, h⟩
        · exact Or.inr ⟨_, _, h⟩

/-- A surfaced pod-cleanup error aborts cleanup before the route step. -/
theorem cleanupResources_podErr {σ : Type} (k : KClient σ) (cf : CFClient) (s : σ)
    (b : SessionBinding) {e : ApiError} {tr : List Effect}
    (hpc : podCleanup k s b = (.error e, tr)) :
    cleanupResources k cf s b = (some (.api e), s, tr) := by
  unfold cleanupResources
  rw [hpc]

/-- C4 counterexample: during teardown of a binding with `boundPod = "p1"`,
a transport error from the pod lookup is swallowed — `cleanupResources`
returns success and proceeds to route retraction without any delete call,
while the claim requires the transport error to be surfaced. -/
theorem C4_counterexample :
    cleanupResources (unitClient (.error .notFound) (.error (.transport "boom"))
        (.error .notFound) (.ok ()) (.ok ()) (.ok ()) (.ok ())) cfOk () bDel
      = (none, (), [.getPod "ns" "p1", .deleteRouteCall "s1", .event "CleanedUp"]) := by
  rfl

/-- C4 (amended): during teardown with `status.boundPod` non-empty, the pod
is looked up and, when found, deleted by name; a `NotFound` outcome of the
delete is tolerated, a transport error from the delete call is surfaced,
but any error from the lookup itself (NotFound or transport) is swallowed
and teardown proceeds without a delete call; the surfaced delete transport
error propagates through teardown, blocking finalizer removal and the
`CleanedUp` event. -/
theorem C4_amended_pod_cleanup {σ : Type} (k : KClient σ) (cf : CFClient) (s : σ)
    (b : SessionBinding) (hbp : b.status.boundPod ≠ "") :
    (∀ e, k.getPod s b.nspace b.status.boundPod = .error e →
        podCleanup k s b = (.ok s, [.getPod b.nspace b.status.boundPod]))
    ∧ (∀ pod, k.getPod s b.nspace b.status.boundPod = .ok pod →
        k.deletePod s pod.nspace pod.name = .error .notFound →
        podCleanup k s b
          = (.ok s, [.getPod b.nspace b.status.boundPod, .deletePod pod.nspace pod.name]))
    ∧ (∀ pod s2, k.getPod s b.nspace b.status.boundPod = .ok pod →
        k.deletePod s pod.nspace pod.name = .ok s2 →
        podCleanup k s b
          = (.ok s2, [.getPod b.nspace b.status.boundPod, .deletePod pod.nspace pod.name]))
    ∧ (∀ pod msg, k.getPod s b.nspace b.status.boundPod = .ok pod →
        k.deletePod s pod.nspace pod.name = .error (.transport msg) →
        (cleanupResources k cf s b).1 = some (.api (.transport msg)))
    ∧ (∀ pod msg, hasFin b.finalizers = true →
        k.getPod s b.nspace b.status.boundPod = .ok pod →
        k.deletePod s pod.nspace pod.name = .error (.transport msg) →
        (handleDeletion k cf s b).err = some (.api (.transport msg))
        ∧ (∀ b2, Effect.updateBinding b2 ∉ (handleDeletion k cf s b).effects)
        ∧ Effect.event "CleanedUp" ∉ (handleDeletion k cf s b).effects) := by
  refine ⟨?_, ?_, ?_, ?_, ?_⟩
  · intro e hg
    simp [podCleanup, hbp, hg]
  · intro pod hg hd
    simp [podCleanup, hbp, hg, hd]
  · intro pod s2 hg hd
    simp [podCleanup, hbp, hg, hd]
  · intro pod msg hg hd
    simp [cleanupResources, podCleanup, hbp, hg, hd]
  · intro pod msg hfin hg hd
    have hpc : podCleanup k s b
        = (.error (.transport msg),
           [.getPod b.nspace b.status.boundPod, .deletePod pod.nspace pod.name]) := by
      simp [podCleanup, hbp, hg, hd]
    have hhd := handleDeletion_some k cf s b hfin (cleanupResources_podErr k cf s b hpc)
    rw [hhd]
    refine ⟨rfl, ?_, ?_⟩
    · intro b2 h
      simp at h
    · intro h
      simp at h

/-- Witness for C4 (amended): a swallowed lookup failure on a concrete client. -/
theorem C4_amended_pod_cleanup_witness :
    podCleanup (unitClient (.error .notFound) (.error (.transport "down"))
        (.error .notFound) (.ok ()) (.ok ()) (.ok ()) (.ok ())) () bDel
      = (.ok (), [.getPod "ns" "p1"]) := by
  have h := C4_amended_pod_cleanup (unitClient (.error .notFound) (.error (.transport "down"))
      (.error .notFound) (.ok ()) (.ok ()) (.ok ()) (.ok ())) cfOk () bDel (by decide)
  exact h.1 (.transport "down") rfl

/-- C3 counterexample: with a transport error on the pod lookup and a
successful route retraction, teardown removes the finalizer and emits
`CleanedUp` even though the owned pod was never deleted (no delete call
appears in the trace), refuting the claim that finalizer removal and the
`CleanedUp` event happen only after pod deletion succeeds. -/
theorem C3_counterexample :
    handleDeletion (unitClient (.error .notFound) (.error (.transport "boom"))
        (.error .notFound) (.ok ()) (.ok ()) (.ok ()) (.ok ())) cfOk () bDel
      = ⟨⟨false, 0⟩, none, (),
         [.getPod "ns" "p1", .deleteRouteCall "s1", .event "CleanedUp",
          .updateBinding (removeFinalizer bDel)]⟩ := by
  rfl

/-- C3 (amended): during teardown of a binding carrying the finalizer with a
non-empty sessionID, a surfaced pod-cleanup error (a transport error from the
pod delete) aborts teardown before the route step: the error is returned, the
finalizer-removal update is absent from the trace and no `CleanedUp` event is
emitted; likewise a `DeleteRoute` error blocks finalizer removal, emits no
`CleanedUp` event and is surfaced to the caller; the finalizer-removal update
and the `CleanedUp` event happen only when the pod-cleanup step completes
without a surfaced error (pod deleted, delete NotFound tolerated, or lookup
failure skipped) and route retraction succeeds. -/
theorem C3_amended_teardown {σ : Type} (k : KClient σ) (cf : CFClient) (s : σ)
    (b : SessionBinding) (hfin : hasFin b.finalizers = true) (hsid : b.spec.sessionID ≠ "") :
    (∀ e tr, podCleanup k s b = (.error e, tr) →
        handleDeletion k cf s b = ⟨⟨false, 0⟩, some (.api e), s, tr⟩
        ∧ (∀ b2, Effect.updateBinding b2 ∉ tr)
        ∧ Effect.event "CleanedUp" ∉ tr)
    ∧ (∀ s1 tr msg, podCleanup k s b = (.ok s1, tr) →
        cf.deleteRoute b.spec.sessionID = some msg →
        handleDeletion k cf s b
          = ⟨⟨false, 0⟩, some (.cf msg), s1, tr ++ [.deleteRouteCall b.spec.sessionID]⟩
        ∧ (∀ b2, Effect.updateBinding b2 ∉ tr ++ [Effect.deleteRouteCall b.spec.sessionID])
        ∧ Effect.event "CleanedUp" ∉ tr ++ [Effect.deleteRouteCall b.spec.sessionID])
    ∧ ((handleDeletion k cf s b).err = none →
        cf.deleteRoute b.spec.sessionID = none
        ∧ Effect.deleteRouteCall b.spec.sessionID ∈ (handleDeletion k cf s b).effects
        ∧ Effect.event "CleanedUp" ∈ (handleDeletion k cf s b).effects
        ∧ Effect.updateBinding (removeFinalizer b) ∈ (handleDeletion k cf s b).effects) := by
  refine ⟨?_, ?_, ?_⟩
  · intro e tr hpc
    refine ⟨handleDeletion_some k cf s b hfin (cleanupResources_podErr k cf s b hpc), ?_, ?_⟩
    · intro b2 hmem
      have hshape := podCleanup_effects k s b (Effect.updateBinding b2) (by rw [hpc]; exact hmem)
      rcases hshape with ⟨ns, n, hh⟩ | ⟨ns, n, hh⟩ <;> simp at hh
    · intro hmem
      have hshape := podCleanup_effects k s b (Effect.event "CleanedUp") (by rw [hpc]; exact hmem)
      rcases hshape with ⟨ns, n, hh⟩ | ⟨ns, n, hh⟩ <;> simp at hh
  · intro s1 tr msg hpc hdr
    refine ⟨?_, ?_, ?_⟩
    · simp [handleDeletion, hfin, cleanupResources, hpc, hsid, hdr]
    · intro b2 hmem
      rcases List.mem_append.mp hmem with h | h
      · have hshape := podCleanup_effects k s b (Effect.updateBinding b2) (by rw [hpc]; exact h)
        rcases hshape with ⟨ns, n, hh⟩ | ⟨ns, n, hh⟩ <;> simp at hh
      · simp at h
    · intro hmem
      rcases List.mem_append.mp hmem with h | h
      · have hshape := podCleanup_effects k s b (Effect.event "CleanedUp") (by rw [hpc]; exact h)
        rcases hshape with ⟨ns, n, hh⟩ | ⟨ns, n, hh⟩ <;> simp at hh
      · simp at h
  · intro herr
    rcases hpc : podCleanup k s b with ⟨res, tr⟩
    cases res with
    | error e =>
      simp [handleDeletion, hfin, cleanupResources, hpc] at herr
    | ok s1 =>
      rcases hdr : cf.deleteRoute b.spec.sessionID with _ | msg
      · rcases hub : k.updateBinding s1 (removeFinalizer b) with e | s2
        · simp [handleDeletion, hfin, cleanupResources, hpc, hsid, hdr, hub] at herr
        · refine ⟨rfl, ?_, ?_, ?_⟩ <;>
            simp [handleDeletion, hfin, cleanupResources, hpc, hsid, hdr, hub]
      · simp [handleDeletion, hfin, cleanupResources, hpc, hsid, hdr] at herr

/-- Witness for C3 (amended): on concrete clients, a failed route retraction
surfaces and leaves the finalizer in place, and a transport error on the pod
delete aborts teardown before the route step. -/
theorem C3_amended_teardown_witness :
    handleDeletion (unitClient (.error .notFound) (.ok pod1) (.error .notFound)
        (.ok ()) (.ok ()) (.ok ()) (.ok ())) cfRouteErr () bDel
      = ⟨⟨false, 0⟩, some (.cf "edge down"), (),
         [.getPod "ns" "p1", .deletePod "ns" "p1", .deleteRouteCall "s1"]⟩
    ∧ handleDeletion (unitClient (.error .notFound) (.ok pod1) (.error .notFound)
        (.ok ()) (.ok ()) (.ok ()) (.error (.transport "down"))) cfOk () bDel
      = ⟨⟨false, 0⟩, some (.api (.transport "down")), (),
         [.getPod "ns" "p1", .deletePod "ns" "p1"]⟩ := by
  constructor
  · have h := C3_amended_teardown (unitClient (.error .notFound) (.ok pod1) (.error .notFound)
        (.ok ()) (.ok ()) (.ok ()) (.ok ())) cfRouteErr () bDel (by decide) (by decide)
    exact (h.2.1 () [.getPod "ns" "p1", .deletePod "ns" "p1"] "edge down" rfl rfl).1
  · have h := C3_amended_teardown (unitClient (.error .notFound) (.ok pod1) (.error .notFound)
        (.ok ()) (.ok ()) (.ok ()) (.error (.transport "down"))) cfOk () bDel
        (by decide) (by decide)
    exact (h.1 (.transport "down") [.getPod "ns" "p1", .deletePod "ns" "p1"] rfl).1

/-- C9: a binding whose deletion timestamp is set but which lacks the
operator finalizer reconciles to an immediate success with no requeue, no
state change and no effect beyond the initial load. -/
theorem C9_deleting_without_finalizer {σ : Type} (k : KClient σ) (cf : CFClient) (now : Nat)
    (s : σ) (ns n : String) (b : SessionBinding)
    (hget : k.getBinding s ns n = .ok b)
    (hdel : b.deletionTimestamp ≠ none)
    (hfin : hasFin b.finalizers = false) :
    Reconcile k cf now s ns n = ⟨⟨false, 0⟩, none, s, [.getBinding ns n]⟩ := by
  unfold Reconcile
  simp [hget, hdel, handleDeletion, hfin, withEff]

/-- Witness for C9 on a concrete client and binding. -/
theorem C9_deleting_without_finalizer_witness :
    Reconcile (unitClient (.ok bDelNoFin) (.error .notFound) (.error .notFound)
        (.ok ()) (.ok ()) (.ok ()) (.ok ())) cfOk 3 () "ns" "b"
      = ⟨⟨false, 0⟩, none, (), [.getBinding "ns" "b"]⟩ := by
  exact C9_deleting_without_finalizer _ cfOk 3 () "ns" "b" bDelNoFin rfl (by decide) (by decide)

/-- A stored binding is returned by the state client when addressed by its
own namespace and name. -/
theorem stateClient_getBinding_self (w : World) (b : SessionBinding)
    (hb : w.binding = some b) : stateClient.getBinding w b.nspace b.name = .ok b := by
  simp [stateClient, hb]

/-- The route/readiness tail of the active pass leaves `Requeue` false. -/
theorem afterPod_requeue_false (cf : CFClient) (now : Nat) (b : SessionBinding) (pod : Pod) :
    (activeAfterPod cf now b pod).2.1.requeue = false := by
  unfold activeAfterPod
  by_cases h1 : isPodReady pod
  · simp only [h1, if_true]
    by_cases h2 : podEndpoint pod = ""
    · simp [h2]
    · simp only [h2]
      rcases h3 : cf.ensureRoute b.spec.sessionID (podEndpoint pod) with _ | msg <;> simp [h3, h2]
  · simp [h1]

/-- Every exit of the active pass leaves `Requeue` false (only `RequeueAfter`
is ever used). -/
theorem active_requeue_false {σ : Type} (k : KClient σ) (cf : CFClient) (now : Nat)
    (s : σ) (b : SessionBinding) :
    (reconcileActive k cf now s b).result.requeue = false := by
  unfold reconcileActive
  by_cases h1 : b.spec.sessionID = ""
  · simp [h1]
  · simp only [if_neg h1]
    rcases h2 : cf.ensureSession b.spec.sessionID with ⟨bb, err⟩
    cases err with
    | some msg => simp
    | none =>
      cases bb with
      | false => simp
      | true =>
        dsimp only
        rcases h3 : ensureSessionPod k s (setCond now b condSessionDiscovered "True"
            "SessionActive" "Cloudflare session is active") with ⟨res, tr⟩
        cases res with
        | error e => simp [h3]
        | ok ps =>
          rcases ps with ⟨pod, s2⟩
          simp [h3, afterPod_requeue_false]

/-- The result of the reconcile tail is the result of the active pass. -/
theorem reconcileMain_result {σ : Type} (k : KClient σ) (cf : CFClient) (now : Nat)
    (s : σ) (b : SessionBinding) :
    (reconcileMain k cf now s b).result
      = (reconcileActive k cf now s (stampedBinding now b)).result := by
  unfold reconcileMain
  dsimp only
  rcases h : (reconcileActive k cf now s (stampedBinding now b)).err with _ | e <;> simp [h]

/-- C1 counterexample: on a binding lacking the finalizer (session `s1`,
edge reporting the session missing), the same reconcile invocation that adds
the finalizer also performs the edge call, the status stamp and the status
write-back, and returns with `Requeue` false — not the immediate requeue
without those passes that the claim states. -/
theorem C1_counterexample :
    (Reconcile stateClient cfExpired 7 wNoFin "ns" "b").result = ⟨false, 0⟩
    ∧ Effect.ensureSessionCall "s1" ∈ (Reconcile stateClient cfExpired 7 wNoFin "ns" "b").effects
    ∧ (worldStatus (Reconcile stateClient cfExpired 7 wNoFin "ns" "b").state).map
        (fun st => (st.observedGeneration, st.lastReconcileTime, st.phase))
      = some (1, some 7, "Expired") := by
  refine ⟨rfl, ?_, rfl⟩
  decide

/-- C1 (amended): when a non-deleting binding lacks the operator finalizer
and the metadata update succeeds, Reconcile adds the finalizer, writes back
metadata, and then continues in the same invocation with the status stamp,
the active reconcile and the status write-back (the whole `reconcileMain`
tail), returning that tail's result and error; no immediate requeue is
returned for the finalizer step. -/
theorem C1_amended_finalizer_then_continue {σ : Type} (k : KClient σ) (cf : CFClient)
    (now : Nat) (s : σ) (ns n : String) (b : SessionBinding) (s1 : σ)
    (hget : k.getBinding s ns n = .ok b)
    (hdel : b.deletionTimestamp = none)
    (hfin : hasFin b.finalizers = false)
    (hupd : k.updateBinding s (addFinalizer b) = .ok s1) :
    Reconcile k cf now s ns n
      = withEff [.getBinding ns n, .updateBinding (addFinalizer b)]
          (reconcileMain k cf now s1 (addFinalizer b))
    ∧ (Reconcile k cf now s ns n).result.requeue = false := by
  have h1 : Reconcile k cf now s ns n
      = withEff [.getBinding ns n, .updateBinding (addFinalizer b)]
          (reconcileMain k cf now s1 (addFinalizer b)) := by
    unfold Reconcile
    simp [hget, hdel, hfin, hupd]
  refine ⟨h1, ?_⟩
  rw [h1]
  show (reconcileMain k cf now s1 (addFinalizer b)).result.requeue = false
  rw [reconcileMain_result]
  exact active_requeue_false k cf now s1 (stampedBinding now (addFinalizer b))

/-- Witness for C1 (amended) on a concrete client and binding. -/
theorem C1_amended_witness :
    Reconcile (unitClient (.ok bNoFin) (.error .notFound) (.error .notFound)
        (.ok ()) (.ok ()) (.ok ()) (.ok ())) cfOk 3 () "ns" "b"
      = withEff [.getBinding "ns" "b", .updateBinding (addFinalizer bNoFin)]
          (reconcileMain (unitClient (.ok bNoFin) (.error .notFound) (.error .notFound)
            (.ok ()) (.ok ()) (.ok ()) (.ok ())) cfOk 3 () (addFinalizer bNoFin)) := by
  exact (C1_amended_finalizer_then_continue _ cfOk 3 () "ns" "b" bNoFin ()
    rfl rfl (by decide) rfl).1

/-- The reconcile tail on a stored binding with empty `spec.sessionID`
succeeds with zero requeue, stores phase `Error` with `SessionDiscovered`
False / `InvalidSpec`, touches no pod, and emits only the binding read and
the status write. -/
theorem reconcileMain_invalid (cf : CFClient) (now : Nat) (sf : World) (bf : SessionBinding)
    (hb : sf.binding = some bf)
    (hsid : bf.spec.sessionID = "") :
    (reconcileMain stateClient cf now sf bf).err = none
    ∧ (reconcileMain stateClient cf now sf bf).result = ⟨false, 0⟩
    ∧ (∃ b2, (reconcileMain stateClient cf now sf bf).state.binding = some b2
        ∧ b2.status.phase = "Error"
        ∧ ∃ c, findCond b2.status.conditions condSessionDiscovered = some c
            ∧ c.status = "False" ∧ c.reason = "InvalidSpec")
    ∧ (∀ e ∈ (reconcileMain stateClient cf now sf bf).effects,
        e = Effect.getBinding bf.nspace bf.name ∨ ∃ b3, e = Effect.statusUpdate b3)
    ∧ (reconcileMain stateClient cf now sf bf).state.pods = sf.pods := by
  have hget : stateClient.getBinding sf bf.nspace bf.name = .ok bf :=
    stateClient_getBinding_self sf bf hb
  have hact : reconcileActive stateClient cf now sf (stampedBinding now bf)
      = ⟨{ bf with
           status := {
             phase := "Error",
             boundPod := bf.status.boundPod,
             routeEndpoint := bf.status.routeEndpoint,
             observedGeneration := bf.generation,
             conditions := setCondList now condSessionDiscovered "False" "InvalidSpec"
               "spec.sessionID must be provided" bf.status.conditions,
             lastReconcileTime := some now } },
         ⟨false, 0⟩, none, sf, []⟩ := by
    unfold reconcileActive
    rw [if_pos (show (stampedBinding now bf).spec.sessionID = "" from hsid)]
    simp [stampedBinding, setCond]
  set SE : SessionBindingStatus := {
    phase := "Error",
    boundPod := bf.status.boundPod,
    routeEndpoint := bf.status.routeEndpoint,
    observedGeneration := bf.generation,
    conditions := setCondList now condSessionDiscovered "False" "InvalidSpec"
      "spec.sessionID must be provided" bf.status.conditions,
    lastReconcileTime := some now } with hSE
  have hget2 : stateClient.getBinding sf ({ bf with status := SE } : SessionBinding).nspace
      ({ bf with status := SE } : SessionBinding).name = .ok bf := hget
  have hP : patchStatus stateClient sf ({ bf with status := SE } : SessionBinding)
      = if bf.status = SE then (none, sf, [.getBinding bf.nspace bf.name])
        else (none, { sf with binding := some { bf with status := SE } },
          [.getBinding bf.nspace bf.name, .statusUpdate { bf with status := SE }]) := by
    unfold patchStatus
    rw [hget2]
    dsimp only
    split
    · rfl
    · rfl
  have hM : reconcileMain stateClient cf now sf bf
      = ⟨⟨false, 0⟩, (patchStatus stateClient sf ({ bf with status := SE } : SessionBinding)).1,
         (patchStatus stateClient sf ({ bf with status := SE } : SessionBinding)).2.1,
         [] ++ (patchStatus stateClient sf ({ bf with status := SE } : SessionBinding)).2.2⟩ := by
    unfold reconcileMain
    dsimp only
    rw [hact]
  rw [hM, hP]
  by_cases hst : bf.status = SE
  · rw [if_pos hst]
    refine ⟨rfl, rfl, ⟨bf, by simp [hb], ?_, ?_⟩, ?_, by simp⟩
    · rw [hst]
    · rw [hst, hSE]
      obtain ⟨c, hf, hstc, hrc, _⟩ := condMatch_set now condSessionDiscovered "False"
        "InvalidSpec" "spec.sessionID must be provided" bf.status.conditions
      exact ⟨c, hf, hstc, hrc⟩
    · intro e he
      simp at he
      exact Or.inl he
  · rw [if_neg hst]
    refine ⟨rfl, rfl, ⟨{ bf with status := SE }, by simp, rfl, ?_⟩, ?_, by simp⟩
    · rw [hSE]
      obtain ⟨c, hf, hstc, hrc, _⟩ := condMatch_set now condSessionDiscovered "False"
        "InvalidSpec" "spec.sessionID must be provided" bf.status.conditions
      exact ⟨c, hf, hstc, hrc⟩
    · intro e he
      simp at he
      rcases he with h | h
      · exact Or.inl h
      · exact Or.inr ⟨_, h⟩

/-- C5: a non-deleting binding with empty `spec.sessionID` reconciles to
success with zero requeue, whether or not the finalizer is already present;
the stored status has phase `Error` and `SessionDiscovered` False with
reason `InvalidSpec`; no edge call, no pod operation and no event happen —
the only effects are binding reads, at most one finalizer-adding metadata
write, and the status write — and the pod set is unchanged. -/
theorem C5_invalid_spec (cf : CFClient) (now : Nat) (w : World) (b : SessionBinding)
    (hb : w.binding = some b)
    (hdel : b.deletionTimestamp = none)
    (hsid : b.spec.sessionID = "") :
    (Reconcile stateClient cf now w b.nspace b.name).err = none
    ∧ (Reconcile stateClient cf now w b.nspace b.name).result = ⟨false, 0⟩
    ∧ (∃ b2, (Reconcile stateClient cf now w b.nspace b.name).state.binding = some b2
        ∧ b2.status.phase = "Error"
        ∧ ∃ c, findCond b2.status.conditions condSessionDiscovered = some c
            ∧ c.status = "False" ∧ c.reason = "InvalidSpec")
    ∧ (∀ e ∈ (Reconcile stateClient cf now w b.nspace b.name).effects,
        e = Effect.getBinding b.nspace b.name
        ∨ e = Effect.updateBinding (addFinalizer b)
        ∨ ∃ b3, e = Effect.statusUpdate b3)
    ∧ (Reconcile stateClient cf now w b.nspace b.name).state.pods = w.pods := by
  have hget : stateClient.getBinding w b.nspace b.name = .ok b :=
    stateClient_getBinding_self w b hb
  by_cases hfin : hasFin b.finalizers
  · have hR : Reconcile stateClient cf now w b.nspace b.name
        = withEff [.getBinding b.nspace b.name] (reconcileMain stateClient cf now w b) := by
      unfold Reconcile
      simp [hget, hdel, hfin]
    have hI := reconcileMain_invalid cf now w b hb hsid
    rw [hR]
    refine ⟨hI.1, hI.2.1, hI.2.2.1, ?_, hI.2.2.2.2⟩
    intro e he
    simp only [withEff, List.mem_append, List.mem_singleton] at he
    rcases he with h | h
    · exact Or.inl h
    · rcases hI.2.2.2.1 e h with h1 | ⟨b3, h1⟩
      · exact Or.inl h1
      · exact Or.inr (Or.inr ⟨b3, h1⟩)
  · have hfin2 : hasFin b.finalizers = false := by
      cases hh : hasFin b.finalizers
      · rfl
      · exact absurd hh hfin
    have hub : stateClient.updateBinding w (addFinalizer b)
        = .ok { w with binding := some (addFinalizer b) } := rfl
    have hR : Reconcile stateClient cf now w b.nspace b.name
        = withEff [.getBinding b.nspace b.name, .updateBinding (addFinalizer b)]
            (reconcileMain stateClient cf now
              { w with binding := some (addFinalizer b) } (addFinalizer b)) := by
      unfold Reconcile
      rw [hget]
      dsimp only
      rw [if_neg (show ¬(b.deletionTimestamp ≠ none) from by simp [hdel])]
      rw [if_neg (show ¬(hasFin b.finalizers = true) from by simp [hfin2])]
      rw [hub]
    have hsid2 : (addFinalizer b).spec.sessionID = "" := by
      unfold addFinalizer
      split <;> exact hsid
    have hI := reconcileMain_invalid cf now
        { w with binding := some (addFinalizer b) } (addFinalizer b) rfl hsid2
    rw [hR]
    refine ⟨hI.1, hI.2.1, hI.2.2.1, ?_, hI.2.2.2.2⟩
    intro e he
    simp only [withEff, List.mem_append, List.mem_cons, List.mem_singleton,
      List.not_mem_nil, or_false] at he
    rcases he with (h | h) | h
    · exact Or.inl h
    · exact Or.inr (Or.inl h)
    · rcases hI.2.2.2.1 e h with h1 | ⟨b3, h1⟩
      · rw [(addFinalizer_meta b).1, (addFinalizer_meta b).2.1] at h1
        exact Or.inl h1
      · exact Or.inr (Or.inr ⟨b3, h1⟩)

/-- Witness for C5 at a concrete world holding an invalid-spec binding. -/
theorem C5_invalid_spec_witness :
    (Reconcile stateClient cfOk 5 wInv "ns" "b").err = none
    ∧ (Reconcile stateClient cfOk 5 wInv "ns" "b").result = ⟨false, 0⟩
    ∧ (Reconcile stateClient cfOk 5 wInv "ns" "b").state.pods = wInv.pods := by
  have h := C5_invalid_spec cfOk 5 wInv bInv rfl rfl rfl
  exact ⟨h.1, h.2.1, h.2.2.2.2⟩

/-- C6: the active pass obeys the per-terminal-state status frame — Error and
Expired exits leave `boundPod` and `routeEndpoint` at their prior values, a
Pending exit sets `boundPod` to the observed pod's name and clears
`routeEndpoint`, and a Bound exit sets both to the freshly observed pod name
and endpoint. -/
theorem C6_status_frame {σ : Type} (k : KClient σ) (cf : CFClient) (now : Nat) (s : σ)
    (b : SessionBinding) :
    ((reconcileActive k cf now s b).binding.status.phase = "Error"
        ∨ (reconcileActive k cf now s b).binding.status.phase = "Expired" →
      (reconcileActive k cf now s b).binding.status.boundPod = b.status.boundPod
      ∧ (reconcileActive k cf now s b).binding.status.routeEndpoint = b.status.routeEndpoint)
    ∧ ((reconcileActive k cf now s b).binding.status.phase = "Pending" →
      ∃ pod s2 tr, ensureSessionPod k s (setCond now b condSessionDiscovered "True"
            "SessionActive" "Cloudflare session is active") = (.ok (pod, s2), tr)
        ∧ (reconcileActive k cf now s b).binding.status.boundPod = pod.name
        ∧ (reconcileActive k cf now s b).binding.status.routeEndpoint = "")
    ∧ ((reconcileActive k cf now s b).binding.status.phase = "Bound" →
      ∃ pod s2 tr, ensureSessionPod k s (setCond now b condSessionDiscovered "True"
            "SessionActive" "Cloudflare session is active") = (.ok (pod, s2), tr)
        ∧ (reconcileActive k cf now s b).binding.status.boundPod = pod.name
        ∧ (reconcileActive k cf now s b).binding.status.routeEndpoint = podEndpoint pod) := by
  unfold reconcileActive
  by_cases h1 : b.spec.sessionID = ""
  · simp only [if_pos h1]
    exact ⟨fun _ => ⟨rfl, rfl⟩, fun hph => by simp at hph,
      fun hph => by simp at hph⟩
  · simp only [if_neg h1]
    rcases h2 : cf.ensureSession b.spec.sessionID with ⟨bb, err⟩
    cases bb with
    | false =>
      cases err with
      | some msg =>
        exact ⟨fun _ => ⟨rfl, rfl⟩, fun hph => by simp at hph,
          fun hph => by simp at hph⟩
      | none =>
        exact ⟨fun _ => ⟨rfl, rfl⟩, fun hph => by simp at hph,
          fun hph => by simp at hph⟩
    | true =>
      cases err with
      | some msg =>
        exact ⟨fun _ => ⟨rfl, rfl⟩, fun hph => by simp at hph,
          fun hph => by simp at hph⟩
      | none =>
        dsimp only
        rcases h3 : ensureSessionPod k s (setCond now b condSessionDiscovered "True"
            "SessionActive" "Cloudflare session is active") with ⟨res, tr⟩
        cases res with
        | error e =>
          simp only [h3]
          exact ⟨fun _ => ⟨rfl, rfl⟩, fun hph => by simp at hph,
            fun hph => by simp at hph⟩
        | ok ps =>
          rcases ps with ⟨pod, s2⟩
          simp only [h3]
          unfold activeAfterPod
          by_cases h4 : isPodReady pod
          · simp only [h4, if_true]
            by_cases h5 : podEndpoint pod = ""
            · simp only [h5, if_pos rfl]
              exact ⟨fun _ => ⟨rfl, rfl⟩, fun hph => by simp at hph,
                fun hph => by simp at hph⟩
            · simp only [if_neg h5]
              rcases h6 : cf.ensureRoute (setCond now b condSessionDiscovered "True"
                  "SessionActive" "Cloudflare session is active").spec.sessionID
                  (podEndpoint pod) with _ | msg
              · simp only [h6]
                exact ⟨fun hph => by simp [setCond] at hph,
                  fun hph => by simp [setCond] at hph,
                  fun _ => ⟨pod, s2, tr, rfl, rfl, rfl⟩⟩
              · simp only [h6]
                exact ⟨fun _ => ⟨rfl, rfl⟩, fun hph => by simp at hph,
                  fun hph => by simp at hph⟩
          · simp only [h4, if_false]
            exact ⟨fun hph => by simp at hph,
              fun _ => ⟨pod, s2, tr, rfl, rfl, rfl⟩,
              fun hph => by simp at hph⟩

/-- Witness for C6: a concrete run ending Bound carries the observed pod's
name and endpoint. -/
theorem C6_status_frame_witness :
    (reconcileActive kReady cfOk 0 () bFin).binding.status.phase = "Bound"
    ∧ (reconcileActive kReady cfOk 0 () bFin).binding.status.boundPod = "session-s1"
    ∧ (reconcileActive kReady cfOk 0 () bFin).binding.status.routeEndpoint = "10.0.0.7:8080" := by
  have h := C6_status_frame kReady cfOk 0 () bFin
  obtain ⟨pod, s2, tr, hesp, hbp, hre⟩ := h.2.2 (by decide)
  have h2 : ensureSessionPod kReady () (setCond 0 bFin condSessionDiscovered "True"
      "SessionActive" "Cloudflare session is active")
      = (.ok (readyPod, ()), [.getPod "ns" "session-s1"]) := rfl
  rw [h2] at hesp
  simp only [Prod.mk.injEq, Except.ok.injEq] at hesp
  obtain ⟨⟨hpod, -⟩, -⟩ := hesp
  subst hpod
  exact ⟨by decide, hbp, by rw [hre]; decide⟩

/-- Removing the finalizer leaves a list without it. -/
theorem hasFin_removeFin (l : List String) : hasFin (removeFin l) = false := by
  induction l with
  | nil => rfl
  | cons f rest ih =>
    by_cases h : f = sessionBindingFinalizer <;> simp [removeFin, hasFin, h, ih]

/-- Appending the finalizer makes the list contain it. -/
theorem hasFin_append_fin (l : List String) :
    hasFin (l ++ [sessionBindingFinalizer]) = true := by
  induction l with
  | nil => simp [hasFin]
  | cons f rest ih =>
    by_cases h : f = sessionBindingFinalizer <;> simp [hasFin, h, ih]

/-- AddFinalizer establishes finalizer presence. -/
theorem hasFin_addFinalizer (b : SessionBinding) :
    hasFin (addFinalizer b).finalizers = true := by
  unfold addFinalizer
  by_cases h : hasFin b.finalizers
  · simp [h]
  · simp [h, hasFin_append_fin]

/-- Appending a pod to a list that misses a key resolves lookups of that key
to the new pod. -/
theorem findPodIn_append_none {l : List Pod} {ns n : String} (p : Pod)
    (h : findPodIn l ns n = none) :
    findPodIn (l ++ [p]) ns n = if p.nspace = ns ∧ p.name = n then some p else none := by
  induction l with
  | nil => rfl
  | cons q rest ih =>
    by_cases hq : q.nspace = ns ∧ q.name = n
    · simp [findPodIn, hq] at h
    · simp only [findPodIn, if_neg hq] at h ⊢
      simp [List.cons_append, findPodIn, hq]
      exact ih h

/-- A successful pod-ensure against the state client leaves binding and
deployments untouched and guarantees the session pod is stored. -/
theorem ensureSessionPod_ok_state {w : World} {b : SessionBinding} {pod : Pod} {w2 : World}
    {tr : List Effect} (h : ensureSessionPod stateClient w b = (.ok (pod, w2), tr)) :
    w2.binding = w.binding ∧ w2.deployments = w.deployments
    ∧ findPodIn w2.pods b.nspace ("session-" ++ b.spec.sessionID) = some pod := by
  unfold ensureSessionPod at h
  rcases hf : findPodIn w.pods b.nspace ("session-" ++ b.spec.sessionID) with _ | q
  · rcases hd : findDepIn w.deployments b.nspace b.spec.targetDeployment with _ | dep
    · simp [stateClient, hf, hd] at h
    · simp only [stateClient, hf, hd, Prod.mk.injEq, Except.ok.injEq] at h
      obtain ⟨⟨hpod, hw2⟩, htr⟩ := h
      subst hpod
      subst hw2
      refine ⟨rfl, rfl, ?_⟩
      rw [findPodIn_append_none _ hf]
      simp
  · simp only [stateClient, hf, Prod.mk.injEq, Except.ok.injEq] at h
    obtain ⟨⟨hpod, hw2⟩, htr⟩ := h
    subst hpod
    subst hw2
    exact ⟨rfl, rfl, hf⟩

/-- When the session pod is stored, pod-ensure returns it with no state
change and a single lookup effect. -/
theorem ensureSessionPod_found {w : World} {b : SessionBinding} {pod : Pod}
    (h : findPodIn w.pods b.nspace ("session-" ++ b.spec.sessionID) = some pod) :
    ensureSessionPod stateClient w b
      = (.ok (pod, w), [.getPod b.nspace ("session-" ++ b.spec.sessionID)]) := by
  unfold ensureSessionPod
  simp [stateClient, h]


/-- The route/readiness tail only rewrites the status, and never touches the
observed generation or the reconcile timestamp. -/
theorem afterPod_frame (cf : CFClient) (now : Nat) (b : SessionBinding) (pod : Pod) :
    (activeAfterPod cf now b pod).1
        = { b with status := (activeAfterPod cf now b pod).1.status }
    ∧ (activeAfterPod cf now b pod).1.status.observedGeneration = b.status.observedGeneration
    ∧ (activeAfterPod cf now b pod).1.status.lastReconcileTime = b.status.lastReconcileTime := by
  unfold activeAfterPod
  by_cases h4 : isPodReady pod
  · simp only [h4, if_true]
    by_cases h5 : podEndpoint pod = ""
    · simp only [h5, if_pos rfl]
      exact ⟨rfl, rfl, rfl⟩
    · simp only [if_neg h5]
      rcases h6 : cf.ensureRoute b.spec.sessionID (podEndpoint pod) with _ | msg
      · simp only [h6]
        exact ⟨rfl, rfl, rfl⟩
      · simp only [h6]
        exact ⟨rfl, rfl, rfl⟩
  · simp only [h4, if_false]
    exact ⟨rfl, rfl, rfl⟩

/-- The route/readiness tail preserves conditions of other types. -/
theorem afterPod_condMatch (cf : CFClient) (now : Nat) (b : SessionBinding) (pod : Pod)
    {t st r m : String} (h1 : t ≠ condPodReady) (h2 : t ≠ condRouteConfigured)
    (h : condMatch b.status.conditions t st r m) :
    condMatch (activeAfterPod cf now b pod).1.status.conditions t st r m := by
  unfold activeAfterPod
  by_cases h4 : isPodReady pod
  · simp only [h4, if_true]
    by_cases h5 : podEndpoint pod = ""
    · simp only [h5, if_pos rfl]
      exact condMatch_set_ne now condRouteConfigured _ _ _ (Ne.symm h2)
        (condMatch_set_ne now condPodReady _ _ _ (Ne.symm h1) h)
    · simp only [if_neg h5]
      rcases h6 : cf.ensureRoute b.spec.sessionID (podEndpoint pod) with _ | msg
      · simp only [h6]
        exact condMatch_set_ne now condRouteConfigured _ _ _ (Ne.symm h2)
          (condMatch_set_ne now condPodReady _ _ _ (Ne.symm h1) h)
      · simp only [h6]
        exact condMatch_set_ne now condRouteConfigured _ _ _ (Ne.symm h2)
          (condMatch_set_ne now condPodReady _ _ _ (Ne.symm h1) h)
  · simp only [h4, if_false]
    exact condMatch_set_ne now condPodReady _ _ _ (Ne.symm h1) h

/-- The active pass only rewrites the status, and never touches the observed
generation or the reconcile timestamp. -/
theorem active_frame {σ : Type} (k : KClient σ) (cf : CFClient) (now : Nat) (s : σ)
    (b : SessionBinding) :
    (reconcileActive k cf now s b).binding
        = { b with status := (reconcileActive k cf now s b).binding.status }
    ∧ (reconcileActive k cf now s b).binding.status.observedGeneration
        = b.status.observedGeneration
    ∧ (reconcileActive k cf now s b).binding.status.lastReconcileTime
        = b.status.lastReconcileTime := by
  unfold reconcileActive
  by_cases h1 : b.spec.sessionID = ""
  · simp only [if_pos h1]
    exact ⟨rfl, rfl, rfl⟩
  · simp only [if_neg h1]
    rcases h2 : cf.ensureSession b.spec.sessionID with ⟨bb, err⟩
    cases bb with
    | false =>
      cases err with
      | some msg => exact ⟨rfl, rfl, rfl⟩
      | none => exact ⟨rfl, rfl, rfl⟩
    | true =>
      cases err with
      | some msg => exact ⟨rfl, rfl, rfl⟩
      | none =>
        dsimp only
        rcases h3 : ensureSessionPod k s (setCond now b condSessionDiscovered "True"
            "SessionActive" "Cloudflare session is active") with ⟨res, tr⟩
        cases res with
        | error e =>
          simp only [h3]
          exact ⟨rfl, rfl, rfl⟩
        | ok ps =>
          rcases ps with ⟨pod, s2⟩
          simp only [h3]
          obtain ⟨hm, hog, hlrt⟩ := afterPod_frame cf now (setCond now b condSessionDiscovered
            "True" "SessionActive" "Cloudflare session is active") pod
          exact ⟨hm, hog, hlrt⟩

/-- The active pass never changes the stored binding or the deployments. -/
theorem active_state (cf : CFClient) (now : Nat) (w : World) (b : SessionBinding) :
    (reconcileActive stateClient cf now w b).state.binding = w.binding
    ∧ (reconcileActive stateClient cf now w b).state.deployments = w.deployments := by
  unfold reconcileActive
  by_cases h1 : b.spec.sessionID = ""
  · simp only [if_pos h1]
    exact ⟨by trivial, by trivial⟩
  · simp only [if_neg h1]
    rcases h2 : cf.ensureSession b.spec.sessionID with ⟨bb, err⟩
    cases bb with
    | false =>
      cases err with
      | some msg => exact ⟨rfl, rfl⟩
      | none => exact ⟨rfl, rfl⟩
    | true =>
      cases err with
      | some msg => exact ⟨rfl, rfl⟩
      | none =>
        dsimp only
        rcases h3 : ensureSessionPod stateClient w (setCond now b condSessionDiscovered "True"
            "SessionActive" "Cloudflare session is active") with ⟨res, tr⟩
        cases res with
        | error e =>
          simp only [h3]
          exact ⟨by trivial, by trivial⟩
        | ok ps =>
          rcases ps with ⟨pod, s2⟩
          simp only [h3]
          obtain ⟨hb2, hd2, -⟩ := ensureSessionPod_ok_state h3
          exact ⟨hb2, hd2⟩



/-- Setting a condition that already holds leaves the binding unchanged. -/
theorem setCond_stable (now : Nat) (b : SessionBinding) (t st r m : String)
    (h : condMatch b.status.conditions t st r m) : setCond now b t st r m = b := by
  unfold setCond
  rw [setCondList_stable now h]

/-- The route/readiness tail is idempotent on the status it computes. -/
theorem afterPod_idem (cf : CFClient) (now : Nat) (b : SessionBinding) (pod : Pod) :
    activeAfterPod cf now { b with status := (activeAfterPod cf now b pod).1.status } pod
      = activeAfterPod cf now b pod := by
  unfold activeAfterPod
  cases h4 : isPodReady pod with
  | false =>
    simp only [h4, Bool.false_eq_true, if_false, setCond]
    rw [setCondList_stable now (condMatch_set now condPodReady "False" "WaitingForReadiness"
      "Session pod not ready yet" b.status.conditions)]
  | true =>
    simp only [h4, if_true, setCond]
    by_cases h5 : podEndpoint pod = ""
    · simp only [h5, eq_self_iff_true, if_true]
      rw [setCondList_stable now (condMatch_set_ne now condRouteConfigured "False"
        "PodEndpointMissing" "Pod ready but lacks PodIP/port" (by decide)
        (condMatch_set now condPodReady "True" "PodReady" "Session pod ready"
          b.status.conditions))]
      rw [setCondList_stable now (condMatch_set now condRouteConfigured "False"
        "PodEndpointMissing" "Pod ready but lacks PodIP/port"
        (setCondList now condPodReady "True" "PodReady" "Session pod ready"
          b.status.conditions))]
    · simp only [h5, if_neg, if_false]
      rcases h6 : cf.ensureRoute b.spec.sessionID (podEndpoint pod) with _ | msg
      · simp only [h6]
        rw [setCondList_stable now (condMatch_set_ne now condRouteConfigured "True"
          "RouteConfigured" "Cloudflare route configured" (by decide)
          (condMatch_set now condPodReady "True" "PodReady" "Session pod ready"
            b.status.conditions))]
        rw [setCondList_stable now (condMatch_set now condRouteConfigured "True"
          "RouteConfigured" "Cloudflare route configured"
          (setCondList now condPodReady "True" "PodReady" "Session pod ready"
            b.status.conditions))]
      · simp only [h6]
        rw [setCondList_stable now (condMatch_set_ne now condRouteConfigured "False"
          "CloudflareError" msg (by decide)
          (condMatch_set now condPodReady "True" "PodReady" "Session pod ready"
            b.status.conditions))]
        rw [setCondList_stable now (condMatch_set now condRouteConfigured "False"
          "CloudflareError" msg
          (setCondList now condPodReady "True" "PodReady" "Session pod ready"
            b.status.conditions))]


/-- Re-running the active pass on the status it just computed reproduces the
same binding and result, changes no state and raises no error. -/
theorem active_idem (cf : CFClient) (now : Nat) (sf w1 : World) (b1 : SessionBinding)
    (herr : (reconcileActive stateClient cf now sf b1).err = none)
    (hpods : w1.pods = (reconcileActive stateClient cf now sf b1).state.pods) :
    (reconcileActive stateClient cf now w1
        { b1 with status := (reconcileActive stateClient cf now sf b1).binding.status }).binding
      = (reconcileActive stateClient cf now sf b1).binding
    ∧ (reconcileActive stateClient cf now w1
        { b1 with status := (reconcileActive stateClient cf now sf b1).binding.status }).result
      = (reconcileActive stateClient cf now sf b1).result
    ∧ (reconcileActive stateClient cf now w1
        { b1 with status := (reconcileActive stateClient cf now sf b1).binding.status }).err
      = none
    ∧ (reconcileActive stateClient cf now w1
        { b1 with status := (reconcileActive stateClient cf now sf b1).binding.status }).state
      = w1 := by
  unfold reconcileActive
  by_cases h1 : b1.spec.sessionID = ""
  · simp only [h1, eq_self_iff_true, if_true, setCond]
    rw [setCondList_stable now (condMatch_set now condSessionDiscovered "False" "InvalidSpec"
      "spec.sessionID must be provided" b1.status.conditions)]
    exact ⟨by trivial, by trivial, by trivial, by trivial⟩
  · simp only [h1, if_neg, if_false]
    rcases h2 : cf.ensureSession b1.spec.sessionID with ⟨bb, err⟩
    cases bb with
    | false =>
      cases err with
      | some msg =>
        simp only [setCond]
        rw [setCondList_stable now (condMatch_set now condSessionDiscovered "Unknown"
          "CloudflareError" msg b1.status.conditions)]
        exact ⟨by trivial, by trivial, by trivial, by trivial⟩
      | none =>
        simp only [setCond]
        rw [setCondList_stable now (condMatch_set now condSessionDiscovered "False"
          "NotFound" "Cloudflare session not found" b1.status.conditions)]
        exact ⟨by trivial, by trivial, by trivial, by trivial⟩
    | true =>
      cases err with
      | some msg =>
        simp only [setCond]
        rw [setCondList_stable now (condMatch_set now condSessionDiscovered "Unknown"
          "CloudflareError" msg b1.status.conditions)]
        exact ⟨by trivial, by trivial, by trivial, by trivial⟩
      | none =>
        dsimp only
        rcases h3 : ensureSessionPod stateClient sf (setCond now b1 condSessionDiscovered "True"
            "SessionActive" "Cloudflare session is active") with ⟨res, tr⟩
        cases res with
        | error e =>
          exfalso
          unfold reconcileActive at herr
          rw [if_neg h1] at herr
          rw [h2] at herr
          dsimp only at herr
          rw [h3] at herr
          simp at herr
        | ok ps =>
          rcases ps with ⟨pod, s2⟩
          simp only [h3]
          unfold reconcileActive at hpods
          rw [if_neg h1] at hpods
          rw [h2] at hpods
          dsimp only at hpods
          rw [h3] at hpods
          dsimp only at hpods
          have hfound1 : findPodIn w1.pods b1.nspace ("session-" ++ b1.spec.sessionID)
              = some pod := by
            rw [hpods]
            exact (ensureSessionPod_ok_state h3).2.2
          have hcm : condMatch ((activeAfterPod cf now (setCond now b1 condSessionDiscovered
              "True" "SessionActive" "Cloudflare session is active") pod).1.status.conditions)
              condSessionDiscovered "True" "SessionActive" "Cloudflare session is active" :=
            afterPod_condMatch cf now _ pod (by decide) (by decide)
              (condMatch_set now condSessionDiscovered "True" "SessionActive"
                "Cloudflare session is active" b1.status.conditions)
          have hesp2 := @ensureSessionPod_found w1
            (setCond now { b1 with status := (activeAfterPod cf now (setCond now b1
                condSessionDiscovered "True" "SessionActive" "Cloudflare session is active")
                pod).1.status }
              condSessionDiscovered "True" "SessionActive" "Cloudflare session is active")
            pod hfound1
          rw [hesp2]
          have hset := setCond_stable now
            { b1 with status := (activeAfterPod cf now (setCond now b1 condSessionDiscovered
                "True" "SessionActive" "Cloudflare session is active") pod).1.status }
            condSessionDiscovered "True" "SessionActive" "Cloudflare session is active" hcm
          rw [hset]
          refine ⟨?_, ?_, rfl, rfl⟩
          · exact congrArg (fun o => o.1) (afterPod_idem cf now (setCond now b1
              condSessionDiscovered "True" "SessionActive" "Cloudflare session is active") pod)
          · exact congrArg (fun o => o.2.1) (afterPod_idem cf now (setCond now b1
              condSessionDiscovered "True" "SessionActive" "Cloudflare session is active") pod)


/-- The state client returns the stored binding when addressed by its key. -/
theorem stateClient_getBinding_eq (w : World) (b : SessionBinding) (ns n : String)
    (hb : w.binding = some b) (hns : b.nspace = ns) (hn : b.name = n) :
    stateClient.getBinding w ns n = .ok b := by
  simp [stateClient, hb, hns, hn]

/-- Characterization of the reconcile tail on a successful active pass: no
error, and the stored status becomes the computed one (written only when it
differs). -/
theorem reconcileMain_char (cf : CFClient) (now : Nat) (sf : World) (bf : SessionBinding)
    (ab : SessionBinding) (ares : RResult) (astate : World) (aeff : List Effect)
    (hA : reconcileActive stateClient cf now sf (stampedBinding now bf)
        = ⟨ab, ares, none, astate, aeff⟩)
    (hsb : astate.binding = some bf)
    (habns : ab.nspace = bf.nspace) (habn : ab.name = bf.name) :
    (reconcileMain stateClient cf now sf bf).err = none
    ∧ (reconcileMain stateClient cf now sf bf).state
        = if bf.status = ab.status then astate
          else { astate with binding := some { bf with status := ab.status } } := by
  have hget : stateClient.getBinding astate ab.nspace ab.name = .ok bf := by
    rw [habns, habn]
    exact stateClient_getBinding_eq astate bf bf.nspace bf.name hsb rfl rfl
  unfold reconcileMain patchStatus
  simp only [hA]
  simp only [hget]
  by_cases hs : bf.status = ab.status
  · simp only [if_pos hs]
    exact ⟨by trivial, by trivial⟩
  · simp only [if_neg hs, stateClient]
    exact ⟨by trivial, by trivial⟩


/-- A converged world — one whose stored binding already carries the status
the active pass computes — is a fixpoint of Reconcile. -/
theorem reconcile_of_converged (cf : CFClient) (now : Nat) (sf w1 : World)
    (bf : SessionBinding) (ns n : String) (ab : SessionBinding) (ares : RResult)
    (astate : World) (aeff : List Effect)
    (hA : reconcileActive stateClient cf now sf (stampedBinding now bf)
        = ⟨ab, ares, none, astate, aeff⟩)
    (hns : bf.nspace = ns) (hn : bf.name = n) (hdel : bf.deletionTimestamp = none)
    (hfin : hasFin bf.finalizers = true)
    (habns : ab.nspace = bf.nspace) (habn : ab.name = bf.name)
    (hog : ab.status.observedGeneration = bf.generation)
    (hlrt : ab.status.lastReconcileTime = some now)
    (hw1b : w1.binding = some { bf with status := ab.status })
    (hw1p : w1.pods = astate.pods) :
    (Reconcile stateClient cf now w1 ns n).state = w1
    ∧ (Reconcile stateClient cf now w1 ns n).err = none := by
  have hget : stateClient.getBinding w1 ns n = .ok { bf with status := ab.status } :=
    stateClient_getBinding_eq w1 _ ns n hw1b hns hn
  have hstampeq : stampedBinding now { bf with status := ab.status }
      = { bf with status := ab.status } := by
    unfold stampedBinding
    dsimp only
    rw [show ({ ab.status with
        observedGeneration := bf.generation,
        lastReconcileTime := some now } : SessionBindingStatus) = ab.status from by
      ext <;> simp [hog, hlrt]]
  have hsubj : stampedBinding now { bf with status := ab.status }
      = { stampedBinding now bf with status := ab.status } := by
    rw [hstampeq]
    dsimp only [stampedBinding]
  rcases hA2 : reconcileActive stateClient cf now w1
      (stampedBinding now { bf with status := ab.status }) with ⟨ab2, ares2, aerr2, astate2, aeff2⟩
  have hA2i : reconcileActive stateClient cf now w1
      { stampedBinding now bf with status := ab.status } = ⟨ab2, ares2, aerr2, astate2, aeff2⟩ := by
    rw [← hsubj]
    exact hA2
  have hidem := active_idem cf now sf w1 (stampedBinding now bf)
    (by rw [hA]) (by rw [hA]; exact hw1p)
  rw [hA, hA2i] at hidem
  have hab2 : ab2 = ab := hidem.1
  have haerr2 : aerr2 = none := hidem.2.2.1
  have hastate2 : astate2 = w1 := hidem.2.2.2
  rw [hab2, haerr2, hastate2] at hA2
  have hchar2 := reconcileMain_char cf now w1 { bf with status := ab.status }
    ab ares2 w1 aeff2 hA2
    (by rw [hw1b]) habns habn
  unfold Reconcile
  rw [hget]
  dsimp only
  rw [if_neg (show ¬({ bf with status := ab.status } : SessionBinding).deletionTimestamp ≠ none
    from by simp [hdel])]
  rw [if_pos (show hasFin ({ bf with status := ab.status } : SessionBinding).finalizers = true
    from hfin)]
  constructor
  · show (reconcileMain stateClient cf now w1 { bf with status := ab.status }).state = w1
    rw [hchar2.2]
    rw [if_pos (show ({ bf with status := ab.status } : SessionBinding).status = ab.status
      from rfl)]
  · show (reconcileMain stateClient cf now w1 { bf with status := ab.status }).err = none
    exact hchar2.1


/-- After a successful non-deleting reconcile tail, the produced world is a
fixpoint of Reconcile. -/
theorem main_fixpoint (cf : CFClient) (now : Nat) (sf : World) (bf : SessionBinding)
    (ns n : String)
    (hb : sf.binding = some bf) (hns : bf.nspace = ns) (hn : bf.name = n)
    (hdel : bf.deletionTimestamp = none) (hfin : hasFin bf.finalizers = true)
    (herr : (reconcileMain stateClient cf now sf bf).err = none) :
    (Reconcile stateClient cf now (reconcileMain stateClient cf now sf bf).state ns n).state
      = (reconcileMain stateClient cf now sf bf).state
    ∧ (Reconcile stateClient cf now (reconcileMain stateClient cf now sf bf).state ns n).err
      = none := by
  rcases hA : reconcileActive stateClient cf now sf (stampedBinding now bf)
    with ⟨ab, ares, aerr, astate, aeff⟩
  have haerr : aerr = none := by
    rcases haerr2 : aerr with _ | e
    · rfl
    · exfalso
      rw [haerr2] at hA
      have he : (reconcileMain stateClient cf now sf bf).err = some e := by
        unfold reconcileMain
        simp only [hA]
      rw [he] at herr
      cases herr
  rw [haerr] at hA
  have hframe := active_frame stateClient cf now sf (stampedBinding now bf)
  rw [hA] at hframe
  have hstate := active_state cf now sf (stampedBinding now bf)
  rw [hA] at hstate
  have hsb : astate.binding = some bf := by
    have h2 : astate.binding = sf.binding := hstate.1
    rw [h2, hb]
  have hf1 : ab = { stampedBinding now bf with status := ab.status } := hframe.1
  have habns : ab.nspace = bf.nspace := by
    rw [hf1]
    rfl
  have habn : ab.name = bf.name := by
    rw [hf1]
    rfl
  have hog : ab.status.observedGeneration = bf.generation := by
    have h2 : ab.status.observedGeneration
        = (stampedBinding now bf).status.observedGeneration := hframe.2.1
    simpa [stampedBinding] using h2
  have hlrt : ab.status.lastReconcileTime = some now := by
    have h2 : ab.status.lastReconcileTime
        = (stampedBinding now bf).status.lastReconcileTime := hframe.2.2
    simpa [stampedBinding] using h2
  have hchar := reconcileMain_char cf now sf bf ab ares astate aeff hA hsb habns habn
  rw [hchar.2]
  by_cases hst : bf.status = ab.status
  · rw [if_pos hst]
    have hbfeq : bf = { bf with status := ab.status } := by
      rw [← hst]
    exact reconcile_of_converged cf now sf astate bf ns n ab ares astate aeff hA hns hn hdel
      hfin habns habn hog hlrt (by rw [hsb, ← hbfeq]) rfl
  · rw [if_neg hst]
    exact reconcile_of_converged cf now sf _ bf ns n ab ares astate aeff hA hns hn hdel
      hfin habns habn hog hlrt rfl rfl

/-- One successful reconcile makes the cluster state a fixpoint: a second
invocation changes nothing and succeeds. -/
theorem recStep_fix (cf : CFClient) (now : Nat) (ns n : String) (w : World)
    (h : (Reconcile stateClient cf now w ns n).err = none) :
    (Reconcile stateClient cf now (Reconcile stateClient cf now w ns n).state ns n).state
      = (Reconcile stateClient cf now w ns n).state
    ∧ (Reconcile stateClient cf now (Reconcile stateClient cf now w ns n).state ns n).err
      = none := by
  rcases hwb : w.binding with _ | b
  · have hr1 : Reconcile stateClient cf now w ns n
        = ⟨⟨false, 0⟩, none, w, [.getBinding ns n]⟩ := by
      unfold Reconcile
      simp [stateClient, hwb]
    rw [hr1]
    constructor
    · show (Reconcile stateClient cf now w ns n).state = w
      rw [hr1]
    · show (Reconcile stateClient cf now w ns n).err = none
      rw [hr1]
  · by_cases hmatch : b.nspace = ns ∧ b.name = n
    · obtain ⟨hbns, hbn⟩ := hmatch
      have hget : stateClient.getBinding w ns n = .ok b :=
        stateClient_getBinding_eq w b ns n hwb hbns hbn
      rcases hdelc : b.deletionTimestamp with _ | t
      · by_cases hfinc : hasFin b.finalizers
        · have hr1 : Reconcile stateClient cf now w ns n
              = withEff [.getBinding ns n] (reconcileMain stateClient cf now w b) := by
            unfold Reconcile
            rw [hget]
            simp [hdelc, hfinc]
          rw [hr1]
          rw [hr1] at h
          have hm := main_fixpoint cf now w b ns n hwb hbns hbn hdelc hfinc h
          constructor
          · show (Reconcile stateClient cf now
                (reconcileMain stateClient cf now w b).state ns n).state
              = (reconcileMain stateClient cf now w b).state
            exact hm.1
          · show (Reconcile stateClient cf now
                (reconcileMain stateClient cf now w b).state ns n).err = none
            exact hm.2
        · have hr1 : Reconcile stateClient cf now w ns n
              = withEff [.getBinding ns n, .updateBinding (addFinalizer b)]
                (reconcileMain stateClient cf now
                  { w with binding := some (addFinalizer b) } (addFinalizer b)) := by
            unfold Reconcile
            rw [hget]
            simp [hdelc, hfinc, stateClient]
          rw [hr1]
          rw [hr1] at h
          have hm := main_fixpoint cf now { w with binding := some (addFinalizer b) }
            (addFinalizer b) ns n rfl ((addFinalizer_meta b).1.trans hbns)
            ((addFinalizer_meta b).2.1.trans hbn)
            ((addFinalizer_meta b).2.2.trans hdelc) (hasFin_addFinalizer b) h
          constructor
          · show (Reconcile stateClient cf now
                (reconcileMain stateClient cf now
                  { w with binding := some (addFinalizer b) } (addFinalizer b)).state ns n).state
              = (reconcileMain stateClient cf now
                  { w with binding := some (addFinalizer b) } (addFinalizer b)).state
            exact hm.1
          · show (Reconcile stateClient cf now
                (reconcileMain stateClient cf now
                  { w with binding := some (addFinalizer b) } (addFinalizer b)).state ns n).err
              = none
            exact hm.2
      · have hrdel : Reconcile stateClient cf now w ns n
            = withEff [.getBinding ns n] (handleDeletion stateClient cf w b) := by
          unfold Reconcile
          rw [hget]
          dsimp only
          rw [if_pos (show b.deletionTimestamp ≠ none from by simp [hdelc])]
        by_cases hfinc : hasFin b.finalizers
        · rcases hcl : cleanupResources stateClient cf w b with ⟨cerr, s1, ctr⟩
          cases cerr with
          | some e =>
            exfalso
            rw [hrdel] at h
            have he : (handleDeletion stateClient cf w b).err = some e := by
              rw [handleDeletion_some stateClient cf w b hfinc hcl]
            have h2 : (handleDeletion stateClient cf w b).err = none := h
            rw [he] at h2
            cases h2
          | none =>
            have hd := handleDeletion_none stateClient cf w b hfinc hcl
              (show stateClient.updateBinding s1 (removeFinalizer b)
                = .ok { s1 with binding := some (removeFinalizer b) } from rfl)
            rw [hrdel, hd]
            have hget2 : stateClient.getBinding
                { s1 with binding := some (removeFinalizer b) } ns n
                = .ok (removeFinalizer b) :=
              stateClient_getBinding_eq _ _ ns n rfl hbns hbn
            have hr2 : Reconcile stateClient cf now
                { s1 with binding := some (removeFinalizer b) } ns n
                = withEff [.getBinding ns n]
                  (handleDeletion stateClient cf
                    { s1 with binding := some (removeFinalizer b) } (removeFinalizer b)) := by
              unfold Reconcile
              rw [hget2]
              dsimp only
              rw [if_pos (show (removeFinalizer b).deletionTimestamp ≠ none from by
                simp [removeFinalizer, hdelc])]
            have hd2 := handleDeletion_nofin stateClient cf
              { s1 with binding := some (removeFinalizer b) } (removeFinalizer b)
              (hasFin_removeFin b.finalizers)
            constructor
            · show (Reconcile stateClient cf now
                  { s1 with binding := some (removeFinalizer b) } ns n).state
                = { s1 with binding := some (removeFinalizer b) }
              rw [hr2, hd2]
              rfl
            · show (Reconcile stateClient cf now
                  { s1 with binding := some (removeFinalizer b) } ns n).err = none
              rw [hr2, hd2]
              rfl
        · have hfinc2 : hasFin b.finalizers = false := by
            simpa using hfinc
          have hd := handleDeletion_nofin stateClient cf w b hfinc2
          rw [hrdel, hd]
          constructor
          · show (Reconcile stateClient cf now w ns n).state = w
            rw [hrdel, hd]
            rfl
          · show (Reconcile stateClient cf now w ns n).err = none
            rw [hrdel, hd]
            rfl
    · have hget : stateClient.getBinding w ns n = .error .notFound := by
        simp only [stateClient, hwb]
        rw [if_neg hmatch]
      have hr1 : Reconcile stateClient cf now w ns n
          = ⟨⟨false, 0⟩, none, w, [.getBinding ns n]⟩ := by
        unfold Reconcile
        rw [hget]
      rw [hr1]
      constructor
      · show (Reconcile stateClient cf now w ns n).state = w
        rw [hr1]
      · show (Reconcile stateClient cf now w ns n).err = none
        rw [hr1]


/-- C8: reconcile is idempotent over status — for every fixed (cluster,
edge, clock) environment, once one reconcile invocation succeeds, every
further invocation on the resulting (otherwise unchanged) state leaves the
state bit-for-bit identical, succeeds, and stores a status identical to the
one produced by the first successful invocation. -/
theorem C8_reconcile_idempotent (cf : CFClient) (now : Nat) (w : World) (ns n : String)
    (h : (Reconcile stateClient cf now w ns n).err = none) :
    ∀ kk : Nat,
      recIter cf now ns n kk (recStep cf now ns n w) = recStep cf now ns n w
      ∧ (Reconcile stateClient cf now (recIter cf now ns n kk (recStep cf now ns n w)) ns n).err
          = none
      ∧ worldStatus (recIter cf now ns n kk (recStep cf now ns n w))
          = worldStatus (recStep cf now ns n w) := by
  have hfix := recStep_fix cf now ns n w h
  intro kk
  induction kk with
  | zero => exact ⟨rfl, hfix.2, rfl⟩
  | succ kk ih =>
    have hstep : recStep cf now ns n (recStep cf now ns n w) = recStep cf now ns n w := by
      unfold recStep
      exact hfix.1
    have hiter : recIter cf now ns n (kk + 1) (recStep cf now ns n w)
        = recIter cf now ns n kk (recStep cf now ns n w) := by
      show recIter cf now ns n kk (recStep cf now ns n (recStep cf now ns n w))
          = recIter cf now ns n kk (recStep cf now ns n w)
      rw [hstep]
    rw [hiter]
    exact ih

/-- Witness for C8 at a concrete world: the first reconcile succeeds and two
further iterations leave the state unchanged. -/
theorem C8_reconcile_idempotent_witness :
    (Reconcile stateClient cfOk 5 wInv "ns" "b").err = none
    ∧ recIter cfOk 5 "ns" "b" 2 (recStep cfOk 5 "ns" "b" wInv) = recStep cfOk 5 "ns" "b" wInv := by
  have h : (Reconcile stateClient cfOk 5 wInv "ns" "b").err = none := by decide
  exact ⟨h, (C8_reconcile_idempotent cfOk 5 wInv "ns" "b" h 2).1⟩

end SessionOperator
